import Mathlib

/-!
Shallow embedding of the Unix default-browser logic of the `webbrowser`
crate (`src/unix.rs` and `src/common.rs`), together with theorems about the
natural-language specification of that logic.

External effects (environment variables, the filesystem, process spawning)
are abstracted into an explicit `Env` record; every effectful code path is
translated into a pure function of that record which additionally returns a
trace of the processes it would spawn.  Machine strings are modelled as Lean
`String`s (lists of characters); the crate only manipulates ASCII command
lines, where Rust byte indices and character indices coincide.
-/

namespace Webbrowser

/-- Error kinds: the subset of `std::io::ErrorKind` used by the crate. -/
inductive ErrorKind where
  | NotFound
  | InvalidInput
  | PermissionDenied
  | Other
deriving DecidableEq

/-- An error value: `std::io::Error` as built by `Error::new(kind, msg)`. -/
structure Err where
  kind : ErrorKind
  msg : String
deriving DecidableEq

instance {ε α : Type} [DecidableEq ε] [DecidableEq α] : DecidableEq (Except ε α) := fun a b =>
  match a, b with
  | .error e1, .error e2 =>
    if h : e1 = e2 then isTrue (by rw [h]) else isFalse (by simp [h])
  | .error _, .ok _ => isFalse (by simp)
  | .ok _, .error _ => isFalse (by simp)
  | .ok a1, .ok a2 =>
    if h : a1 = a2 then isTrue (by rw [h]) else isFalse (by simp [h])

/-- Modelled from the spec: `BrowserOptions` (the spec's `LaunchOptions`
configuration bag) is declared in the crate root, which is absent from the
source snapshot; fields follow spec section 3: `{suppress_output: bool,
target_hint: string, dry_run: bool}`, defaults `suppress_output=true,
dry_run=false`. -/
structure BrowserOptions where
  suppress_output : Bool := true
  target_hint : String := "_blank"
  dry_run : Bool := false
deriving DecidableEq

/-- Modelled from the spec: `TargetType` (the spec's `Target`) wraps a parsed
URL and is declared in the crate root, absent from the source snapshot.  The
fields mirror exactly the `url::Url` accessors `unix.rs` calls on it:
`scheme()`, `host()`, `path()`, `as_str()` (also the `Deref` to `&str`) and
`to_file_path()` (`none` models the `Err` case). -/
structure TargetType where
  scheme : String
  host : Option String
  path : String
  asStr : String
  filePath : Option String
deriving DecidableEq

/-- One external process interaction.  `launch` is a spawn performed by
`run_command` (launching the resolved handler); `query` is a spawn performed
during resolution itself (`Command::output()` style lookups such as
`xdg-settings get default-web-browser` or the WSL powershell/cmd queries). -/
inductive Event where
  | launch (prog : String) (args : List String)
  | query (prog : String) (args : List String)
deriving DecidableEq

/-- Result of a modelled code path: `none` models a Rust panic (an
out-of-bounds index), `some r` a normal `Result` return; the second component
is the trace of processes spawned along the way. -/
abbrev MR := Option (Except Err Unit) × List Event

/-- Operating-system kind distinguished by the `cfg!` tests in `unix.rs`. -/
inductive OsKind where
  | linux
  | haiku
  | otherUnix
deriving DecidableEq

/-- The ambient state read by the Unix browser logic.  Each field abstracts
one effectful primitive of the source; the same `Env` is threaded everywhere
so that dry-run and non-dry-run executions see identical surroundings. -/
structure Env where
  /-- `std::env::var(name)` (also `var_os`): `none` models `Err`. -/
  getVar : String → Option String
  /-- `metadata(p)` succeeded with `is_file() && mode & 0o111 != 0`. -/
  isExecFile : String → Bool
  /-- `p.metadata().is_ok()` (the existence probe used for xdg configs). -/
  fileExists : String → Bool
  /-- `pb.is_file()` (used for the WSL powershell probe). -/
  isFile : String → Bool
  /-- `File::open(p)` + `BufReader::lines()`: the lines of the file, or the
  open error.  Per-line read errors (dropped by `flatten()`) are not
  modelled. -/
  fileLines : String → Except Err (List String)
  /-- `home::home_dir()`. -/
  homeDir : Option String
  /-- which OS the `cfg!` conditions see. -/
  os : OsKind
  /-- `/proc/sys/fs/binfmt_misc/WSLInterop` is readable and contains
  `enabled`. -/
  wslInterop : Bool
  /-- stdout of `Command::output()` (and of the spawn/pipe sequence of
  `get_wsl_windows_browser_ps`) for a given program and argument list;
  `Except.error` models an io failure of the spawn.  UTF-8 decoding of the
  output is assumed to succeed. -/
  cmdOutput : String → List String → Except Err String
  /-- result of `Command::spawn()` in background mode. -/
  spawnResult : String → List String → Except Err Unit
  /-- result of `Command::status()` in foreground mode: the io error, or
  `status.success()`. -/
  statusResult : String → List String → Except Err Bool
  /-- `std::fs::canonicalize`. -/
  canonicalize : String → Except Err String

/- ### Character-list string helpers -/

/-- Rust `char::is_ascii_whitespace`: space, tab, newline, form feed,
carriage return. -/
def isAsciiWhitespace (c : Char) : Bool :=
  c = ' ' || c = '\t' || c = '\n' || c = '\x0c' || c = '\r'

/-- Worker for `splitAsciiWhitespace`: `acc` holds the current token,
reversed. -/
def splitAWAux : List Char → List Char → List (List Char)
  | [], acc => if acc.isEmpty then [] else [acc.reverse]
  | c :: rest, acc =>
    if isAsciiWhitespace c then
      if acc.isEmpty then splitAWAux rest []
      else acc.reverse :: splitAWAux rest []
    else splitAWAux rest (c :: acc)

/-- Rust `str::split_ascii_whitespace().collect()`: tokens separated by runs
of ASCII whitespace, with no empty tokens. -/
def splitAsciiWhitespace (s : String) : List String :=
  (splitAWAux s.data []).map fun l => ⟨l⟩

/-- Rust `str::contains(pat)` on character lists: `pat` occurs as a
contiguous sub-list. -/
def isSubstrOf (pat : List Char) : List Char → Bool
  | [] => pat.isEmpty
  | c :: rest => pat.isPrefixOf (c :: rest) || isSubstrOf pat rest

/-- Rust `str::replace(pat, rep)` specialised to the two-character patterns
the crate uses (`"%s"`, `"%c"`, `"%%"`): a single left-to-right pass; on a
match the two pattern characters are consumed and `rep` is emitted, and the
scan continues after them (the emitted `rep` is never rescanned). -/
def replace2 (p0 p1 : Char) (rep : List Char) : List Char → List Char
  | [] => []
  | [c] => [c]
  | c0 :: c1 :: rest =>
    if c0 = p0 ∧ c1 = p1 then rep ++ replace2 p0 p1 rep rest
    else c0 :: replace2 p0 p1 rep (c1 :: rest)

/-- Rust `str::replace(ch, rep)` for a single-character pattern (used by the
WSL escaping and path code): every occurrence of `c` becomes `rep`. -/
def replaceChar (c : Char) (rep : List Char) (s : List Char) : List Char :=
  (s.map fun x => if x = c then rep else [x]).flatten

/-- Rust `str::trim()`: strip whitespace from both ends. -/
def trimL (s : List Char) : List Char :=
  ((s.dropWhile Char.isWhitespace).reverse.dropWhile Char.isWhitespace).reverse

/-- Rust `str::trim_end_matches(c)`: strip all trailing occurrences of `c`. -/
def trimEndMatches (c : Char) (s : List Char) : List Char :=
  (s.reverse.dropWhile (· = c)).reverse

/-- Raw split of a character list at a separator character, keeping empty
pieces (Rust `str::split(sep)` semantics). -/
def splitCharRaw (sep : Char) : List Char → List (List Char)
  | [] => [[]]
  | c :: rest =>
    match splitCharRaw sep rest with
    | [] => []
    | h :: t => if c = sep then [] :: h :: t else (c :: h) :: t

/-- Rust `str::split(sep).collect()` for a one-character separator. -/
def splitOnChar (sep : Char) (s : String) : List String :=
  (splitCharRaw sep s.data).map fun l => ⟨l⟩

/-- First index of character `c`, as `str::find(c)` (ASCII lines, so byte
and character indices coincide). -/
def find_char_idx (c : Char) : List Char → Option Nat
  | [] => none
  | a :: l => if a = c then some 0 else (find_char_idx c l).map (· + 1)

/-- Is the first character `c`?  Models `str::starts_with(c)` for a single
character pattern. -/
def headIs : List Char → Char → Bool
  | [], _ => false
  | c :: _, t => c = t

/-- Is the last character `c`?  Models `str::ends_with(c)` style checks. -/
def lastIs (l : List Char) (c : Char) : Bool := headIs l.reverse c

/- ### Path helpers (Unix `Path` semantics on plain strings) -/

/-- `PathBuf::push` / `Path::join` with a relative right operand: insert a
separator unless one is already there. -/
def pathJoin (a b : String) : String :=
  if a = "" then b
  else if lastIs a.data '/' then a ++ b
  else a ++ "/" ++ b

/-- The normal components of a path, as `Path::components` (root and empty
components dropped). -/
def pathComps (p : String) : List (List Char) :=
  (splitCharRaw '/' p.data).filter fun l => !l.isEmpty

/-- Whether the path is absolute (`Path::is_absolute` on Unix). -/
def pathIsAbs (p : String) : Bool := headIs p.data '/'

/-- `Path::starts_with(base)`: component-wise prefix test. -/
def pathStartsWith (p base : String) : Bool :=
  pathIsAbs p = pathIsAbs base && (pathComps base).isPrefixOf (pathComps p)

/-- Join components with the given separator character. -/
def joinCompsWith (sep : Char) : List (List Char) → List Char
  | [] => []
  | [c] => c
  | c :: rest => c ++ sep :: joinCompsWith sep rest

/-- `Path::strip_prefix(base)`: on success, the remaining components of `p`
after the components of `base`. -/
def pathStripRoot (p base : String) : Option (List (List Char)) :=
  if pathIsAbs p = pathIsAbs base && (pathComps base).isPrefixOf (pathComps p)
  then some ((pathComps p).drop (pathComps base).length)
  else none

/- ### `common.rs` -/

/-- `common.rs::for_each_token` worker.  `line` is the whole line (tokens are
sliced out of it), `rem` the remaining characters, `pos` the 0-based index of
the head of `rem`, `start` the start index of the token in progress, `inq`
the `in_quotes` flag.  Rust's 1-based `idx` equals `pos + 1` inside an
iteration. -/
def for_each_token_go (line : List Char) : List Char → Nat → Option Nat → Bool → List (List Char)
  | [], _, start, _ =>
    match start with
    | some s => [line.drop s]
    | none => []
  | c :: rest, pos, start, inq =>
    if c = '"' then
      match start with
      | some s => ((line.drop s).take (pos - s)) :: for_each_token_go line rest (pos + 1) none false
      | none => for_each_token_go line rest (pos + 1) (some (pos + 1)) true
    else if c = ' ' then
      if inq then for_each_token_go line rest (pos + 1) start inq
      else
        match start with
        | some s => ((line.drop s).take (pos - s)) :: for_each_token_go line rest (pos + 1) none inq
        | none => for_each_token_go line rest (pos + 1) none inq
    else
      match start with
      | none => for_each_token_go line rest (pos + 1) (some pos) inq
      | some _ => for_each_token_go line rest (pos + 1) start inq

/-- `common.rs::for_each_token`, collecting the tokens it passes to `op`, in
order: quote-aware splitting where a double quote opens a token that runs to
the next double quote (spaces included) and a space otherwise ends the
current token.  ASCII input assumed (Rust slices by byte index). -/
def for_each_token_list (line : String) : List String :=
  (for_each_token_go line.data line.data 0 none false).map fun l => ⟨l⟩

/-- `common.rs::run_command`: under `dry_run` return `Ok` without spawning;
otherwise spawn in background (success = spawn succeeded) or run in
foreground (success = exit status zero).  The returned trace records the
launch attempt; `suppress_output` only redirects stdio and is not otherwise
observable. -/
def run_command (env : Env) (prog : String) (args : List String)
    (background : Bool) (options : BrowserOptions) : MR :=
  if options.dry_run then (some (.ok ()), [])
  else if background then (some (env.spawnResult prog args), [.launch prog args])
  else
    match env.statusResult prog args with
    | .error e => (some (.error e), [.launch prog args])
    | .ok true => (some (.ok ()), [.launch prog args])
    | .ok false =>
      (some (.error ⟨.Other, "command present but exited unsuccessfully"⟩), [.launch prog args])

/- ### `unix.rs`: command probing -/

/-- The fixed list of known text-mode browsers (`TEXT_BROWSERS`). -/
def TEXT_BROWSERS : List String :=
  ["lynx", "links", "links2", "elinks", "w3m", "eww", "netrik", "retawq", "curl"]

/-- `unix.rs::is_text_browser`: `Path::ends_with` against each entry, i.e.
the final path component equals the browser name (the names contain no
separator). -/
def is_text_browser (pb : String) : Bool :=
  match (pathComps pb).getLast? with
  | some c => TEXT_BROWSERS.any fun b => b.data = c
  | none => false

/-- The error `for_matching_path` returns when nothing resolves. -/
def notFoundCmdErr : Err := ⟨.NotFound, "command not found"⟩

/-- The pure resolution part of `unix.rs::for_matching_path`: a name with a
separator is checked directly; otherwise each `PATH` entry is tried in order,
and the first joined path that is an executable regular file wins. -/
def resolveInPath (env : Env) (name : String) : List String → Option String
  | [] => none
  | e :: rest =>
    let pb := pathJoin e name
    if env.isExecFile pb then some pb else resolveInPath env name rest

/-- Resolution of a command name to the executable path `for_matching_path`
would invoke its closure on (`none` = the not-found error). -/
def resolve_path (env : Env) (name : String) : Option String :=
  if name.data.contains '/' then
    if env.isExecFile name then some name else none
  else
    match env.getVar "PATH" with
    | none => none
    | some path => resolveInPath env name (splitOnChar ':' path)

/-- `unix.rs::for_matching_path`, specialised to operations returning the
modelled result-with-trace. -/
def for_matching_path (env : Env) (name : String) (op : String → MR) : MR :=
  match resolve_path env name with
  | some pb => op pb
  | none => (some (.error notFoundCmdErr), [])

/-- The `try_browser!` macro: resolve `name`, then run it on the given
arguments, in the background unless it is a known text browser. -/
def try_browser (env : Env) (options : BrowserOptions) (name : String) (args : List String) : MR :=
  for_matching_path env name fun pb =>
    run_command env pb args (!is_text_browser pb) options

/- ### `unix.rs`: the `$BROWSER` strategy -/

/-- The `%`-substitutions of `try_with_browser_env`, in source order:
`%s` → URL, then `%c` → `:`, then `%%` → `%`. -/
def expand_browser_template (browser url : String) : String :=
  ⟨replace2 '%' '%' ['%'] (replace2 '%' 'c' [':'] (replace2 '%' 's' url.data browser.data))⟩

/-- The command one `$BROWSER` candidate builds: the expanded command line is
tokenized on ASCII whitespace, the first token is the program (`cmdarr[0]` —
`none` models the panic when there is no token), the rest are arguments, and
the URL is appended as one extra trailing argument exactly when the original
candidate does not contain `%s`. -/
def browser_env_cmd (browser url : String) : Option (String × List String) :=
  let cmdline := expand_browser_template browser url
  match splitAsciiWhitespace cmdline with
  | [] => none
  | c :: rest =>
    some (c, rest ++ if isSubstrOf ['%', 's'] browser.data then [] else [url])

/-- Processing of one non-empty `$BROWSER` candidate: build the command,
resolve its program, and run it (background unless a text browser). -/
def browser_env_candidate (env : Env) (options : BrowserOptions) (url browser : String) : MR :=
  match browser_env_cmd browser url with
  | none => (none, [])
  | some (c, args) =>
    for_matching_path env c fun pb =>
      run_command env pb args (!is_text_browser pb) options

/-- `Result::or_else` on modelled results: success and panics short-circuit;
on an error the continuation runs and its trace is appended. -/
def mrOrElse (a : MR) (f : Err → MR) : MR :=
  match a with
  | (none, tr) => (none, tr)
  | (some (.ok u), tr) => (some (.ok u), tr)
  | (some (.error e), tr) =>
    let b := f e
    (b.1, tr ++ b.2)

/-- The candidate loop of `try_with_browser_env`: empty candidates are
skipped, the first candidate that runs successfully wins (its error is
otherwise discarded), and exhaustion yields the strategy's NotFound error. -/
def browser_env_loop (env : Env) (options : BrowserOptions) (url : String) : List String → MR
  | [] =>
    (some (.error ⟨.NotFound, "No valid browser configured in BROWSER environment variable"⟩), [])
  | b :: rest =>
    if b = "" then browser_env_loop env options url rest
    else mrOrElse (browser_env_candidate env options url b) fun _ =>
      browser_env_loop env options url rest

/-- `unix.rs::try_with_browser_env`: split `$BROWSER` (default empty) on `:`
and try each candidate. -/
def try_with_browser_env (env : Env) (options : BrowserOptions) (url : String) : MR :=
  browser_env_loop env options url (splitOnChar ':' ((env.getVar "BROWSER").getD ""))

/- ### `unix.rs`: Haiku and desktop-environment detection -/

/-- `unix.rs::try_haiku`: only on Haiku, try the `open` command. -/
def try_haiku (env : Env) (options : BrowserOptions) (url : String) : MR :=
  if env.os = .haiku then try_browser env options "open" [url]
  else (some (.error ⟨.NotFound, "Not on haiku"⟩), [])

/-- `unix.rs::is_wsl`: only on Linux, and only when the WSL interop marker
file reports `enabled`. -/
def is_wsl (env : Env) : Bool := env.os = .linux && env.wslInterop

/-- `unix.rs::is_flatpak`: the `container` variable equals `flatpak`, ASCII
case-insensitively. -/
def is_flatpak (env : Env) : Bool :=
  match env.getVar "container" with
  | some x => (⟨x.data.map Char.toLower⟩ : String) = "flatpak"
  | none => false

/-- `unix.rs::guess_desktop_env`: sniff `XDG_CURRENT_DESKTOP`,
`DESKTOP_SESSION` and the KDE/Flatpak/WSL markers, in source order. -/
def guess_desktop_env (env : Env) : String :=
  let unknown := "unknown"
  let xcd : String := ⟨((env.getVar "XDG_CURRENT_DESKTOP").getD unknown).data.map Char.toLower⟩
  let dsession : String := ⟨((env.getVar "DESKTOP_SESSION").getD unknown).data.map Char.toLower⟩
  if is_flatpak env then "flatpak"
  else if isSubstrOf "gnome".data xcd.data || isSubstrOf "cinnamon".data xcd.data
      || isSubstrOf "gnome".data dsession.data then "gnome"
  else if isSubstrOf "kde".data xcd.data || (env.getVar "KDE_FULL_SESSION").isSome
      || (env.getVar "KDE_SESSION_VERSION").isSome then "kde"
  else if isSubstrOf "mate".data xcd.data || isSubstrOf "mate".data dsession.data then "mate"
  else if isSubstrOf "xfce".data xcd.data || isSubstrOf "xfce".data dsession.data then "xfce"
  else if is_wsl env then "wsl"
  else unknown

/- ### `unix.rs`: the XDG strategy -/

/-- The keys `open_using_xdg_config` accumulates while scanning a `.desktop`
file. -/
structure XdgParseState where
  in_desktop_entry : Bool := false
  hidden : Bool := false
  cmdline : Option String := none
  requires_terminal : Bool := false
deriving DecidableEq

/-- One line of the `.desktop` scan: `[Desktop Entry]` opens the section, any
other `[`-line closes it, and inside the section a non-comment `key=value`
line overwrites the corresponding field (`Hidden`/`Terminal` compare the
value against the exact string `true`). -/
def xdg_parse_step (st : XdgParseState) (line : String) : XdgParseState :=
  if line.data = "[Desktop Entry]".data then { st with in_desktop_entry := true }
  else if headIs line.data '[' then { st with in_desktop_entry := false }
  else if st.in_desktop_entry && !headIs line.data '#' then
    match find_char_idx '=' line.data with
    | some idx =>
      let key := line.data.take idx
      let value : String := ⟨line.data.drop (idx + 1)⟩
      if key = "Exec".data then { st with cmdline := some value }
      else if key = "Hidden".data then { st with hidden := value == "true" }
      else if key = "Terminal".data then { st with requires_terminal := value == "true" }
      else st
    | none => st
  else st

/-- The whole `.desktop` scan of `open_using_xdg_config`. -/
def xdg_parse (lines : List String) : XdgParseState :=
  lines.foldl xdg_parse_step {}

/-- Whether an `Exec` token is one of the field codes `%u %U %f %F`. -/
def is_xdg_field_code (a : String) : Bool :=
  a = "%u" || a = "%U" || a = "%f" || a = "%F"

/-- The command `open_using_xdg_config` builds from an `Exec` value: ASCII
whitespace tokenization (`none` models the `cmdarr[0]` panic on an empty
token list), each argument token that is a field code becomes the URL, and
the URL is appended as a trailing argument only when no argument token was a
field code. -/
def xdg_build_cmd (cmdline url : String) : Option (String × List String) :=
  match splitAsciiWhitespace cmdline with
  | [] => none
  | c :: rest =>
    some (c, (rest.map fun a => if is_xdg_field_code a then url else a)
      ++ if rest.any is_xdg_field_code then [] else [url])

/-- `unix.rs::open_using_xdg_config`: read and scan the `.desktop` file,
treat a hidden entry as NotFound, and otherwise resolve and run the `Exec`
command (foreground when `Terminal=true`). -/
def open_using_xdg_config (env : Env) (config_path : String)
    (options : BrowserOptions) (url : String) : MR :=
  match env.fileLines config_path with
  | .error e => (some (.error e), [])
  | .ok lines =>
    let st := xdg_parse lines
    if st.hidden then (some (.error ⟨.NotFound, "xdg config is hidden"⟩), [])
    else
      match st.cmdline with
      | none => (some (.error ⟨.NotFound, "not a valid xdg config"⟩), [])
      | some cmdline =>
        match xdg_build_cmd cmdline url with
        | none => (none, [])
        | some (c, args) =>
          for_matching_path env c fun pb =>
            run_command env pb args (!st.requires_terminal) options

/-- `unix.rs::get_xdg_dirs`: `XDG_DATA_HOME` when absolute (else
`~/.local/share`), then the entries of `XDG_DATA_DIRS` (defaulting to
`/usr/local/share` and `/usr/share`). -/
def get_xdg_dirs (env : Env) : List String :=
  let data_home :=
    match env.getVar "XDG_DATA_HOME" with
    | some p => if pathIsAbs p then some p else none
    | none => none
  let data_home :=
    match data_home with
    | some p => some p
    | none => env.homeDir.map fun h => pathJoin h ".local/share"
  (match data_home with
   | some d => [d]
   | none => []) ++
  (match env.getVar "XDG_DATA_DIRS" with
   | some ds => splitOnChar ':' ds
   | none => ["/usr/local/share", "/usr/share"])

/-- The per-directory probe of `try_xdg`: `<dir>/applications/<name>`, and
when that does not exist and the name contains `-`, the variant with every
`-` replaced by `/`. -/
def xdg_config_lookup (env : Env) (xdg_dir browser_name : String) : Option String :=
  let config_path := pathJoin (pathJoin xdg_dir "applications") browser_name
  if env.fileExists config_path then some config_path
  else if browser_name.data.contains '-' then
    let child : String := ⟨browser_name.data.map fun c => if c = '-' then '/' else c⟩
    let config_path2 := pathJoin (pathJoin xdg_dir "applications") child
    if env.fileExists config_path2 then some config_path2 else none
  else none

/-- The directory loop of `try_xdg`: on a found config, success returns
immediately, an error of kind other than NotFound returns immediately, and a
NotFound error moves on with `config_found` set; exhaustion reports
`xdg-open failed` (kind Other) when some config had been found and NotFound
otherwise. -/
def xdg_dir_loop (env : Env) (options : BrowserOptions) (url browser_name : String) :
    List String → Bool → MR
  | [], found =>
    if found then (some (.error ⟨.Other, "xdg-open failed"⟩), [])
    else (some (.error ⟨.NotFound, "no valid xdg config found"⟩), [])
  | d :: rest, found =>
    match xdg_config_lookup env d browser_name with
    | none => xdg_dir_loop env options url browser_name rest found
    | some config_path =>
      match open_using_xdg_config env config_path options url with
      | (none, tr) => (none, tr)
      | (some (.ok _), tr) => (some (.ok ()), tr)
      | (some (.error e), tr) =>
        if e.kind ≠ ErrorKind.NotFound then (some (.error e), tr)
        else
          let r := xdg_dir_loop env options url browser_name rest true
          (r.1, tr ++ r.2)

/-- The argument list of the `xdg-settings` query. -/
def xdgSettingsArgs : List String := ["get", "default-web-browser"]

/-- `unix.rs::try_xdg`: ask `xdg-settings` for the default browser's
`.desktop` name (a resolution-time process spawn, recorded as a `query`
event), then search the XDG data directories for it.  UTF-8 decoding of the
query output is assumed to succeed. -/
def try_xdg (env : Env) (options : BrowserOptions) (url : String) : MR :=
  match resolve_path env "xdg-settings" with
  | none => (some (.error ⟨.NotFound, "unable to determine xdg browser"⟩), [])
  | some pb =>
    let ev := Event.query pb xdgSettingsArgs
    match env.cmdOutput pb xdgSettingsArgs with
    | .error _ => (some (.error ⟨.NotFound, "unable to determine xdg browser"⟩), [ev])
    | .ok out =>
      let browser_name : String := ⟨trimL out.data⟩
      if browser_name = "" then (some (.error ⟨.NotFound, "no default xdg browser"⟩), [ev])
      else
        let r := xdg_dir_loop env options url browser_name (get_xdg_dirs env) false
        (r.1, ev :: r.2)

/- ### `unix.rs::wsl` -/

/-- `wsl::WindowsConfig`. -/
structure WindowsConfig where
  root : String
  cmd_path : String
  powershell_path : Option String
deriving DecidableEq

/-- The `PATH` scan of `get_wsl_win_config`: the first entry that, lowercased
and with trailing `/` stripped, ends in `/windows/system32`. -/
def find_system32 : List String → Option String
  | [] => none
  | p :: rest =>
    let ls := trimEndMatches '/' (p.data.map Char.toLower)
    if "/windows/system32".data.isSuffixOf ls then some p else find_system32 rest

/-- The second `PATH` scan of `get_wsl_win_config`: for every entry under the
Windows root whose `powershell.exe` is a file, remember it (the last such
assignment wins, as the loop does not break). -/
def find_powershell (env : Env) (entries : List String) (root : String) : Option String :=
  entries.foldl (fun acc p =>
    if pathStartsWith p root then
      let pb := pathJoin p "powershell.exe"
      if env.isFile pb then some pb else acc
    else acc) none

/-- `wsl::get_wsl_win_config`: locate the Windows `system32` directory on
`PATH`, canonicalize two levels up as the Windows root, fix `cmd.exe` next to
it, and scan for a `powershell.exe` under the root.  (The
`unwrap_or_else` fallback for `cmd_path` is unreachable: it is always set
together with `root`.) -/
def get_wsl_win_config (env : Env) : Except Err WindowsConfig :=
  match env.getVar "PATH" with
  | none => .error ⟨.NotFound, "invalid windows config"⟩
  | some path_env =>
    let entries := splitOnChar ':' path_env
    match find_system32 entries with
    | none => .error ⟨.NotFound, "invalid windows config"⟩
    | some sysdir =>
      match env.canonicalize (pathJoin sysdir "../..") with
      | .error e => .error e
      | .ok root =>
        .ok ⟨root, pathJoin sysdir "cmd.exe", find_powershell env entries root⟩

/-- First index at which `pat` occurs as a contiguous sub-list. -/
def find_sub_idx (pat : List Char) : List Char → Option Nat
  | [] => if pat.isEmpty then some 0 else none
  | c :: rest =>
    if pat.isPrefixOf (c :: rest) then some 0
    else (find_sub_idx pat rest).map (· + 1)

/-- The argument list of the powershell working-directory query used by
`get_wsl_distro_name`. -/
def wslPwdArgs : List String :=
  ["-NoLogo", "-NoProfile", "-NonInteractive", "-Command",
    "$loc = Get-Location\nWrite-Output $loc.Path"]

/-- `wsl::get_wsl_distro_name`: the `WSL_DISTRO_NAME` variable when set,
otherwise ask powershell for its working directory and slice the distro name
out of the `...::\\wsl$\<name>` UNC prefix (`idx + 9` skips `::\\wsl$\`). -/
def get_wsl_distro_name (env : Env) (wc : WindowsConfig) :
    Except Err String × List Event :=
  match env.getVar "WSL_DISTRO_NAME" with
  | some h => (.ok h, [])
  | none =>
    match wc.powershell_path with
    | none => (.error ⟨.Other, "unable to determine wsl distro name"⟩, [])
    | some psexe =>
      let ev := Event.query psexe wslPwdArgs
      match env.cmdOutput psexe wslPwdArgs with
      | .error e => (.error e, [ev])
      | .ok out =>
        let output := trimEndMatches '\\' out.data
        match find_sub_idx [':', ':', '\\', '\\'] output with
        | none => (.error ⟨.Other, "unable to determine wsl distro name"⟩, [ev])
        | some idx => (.ok ⟨trimL (output.drop (idx + 9))⟩, [ev])

/-- `wsl::wsl_path_lin2win`: a path under the Windows root becomes
`C:\<rest>`, anything else the UNC path `\\wsl$\<distro><path>`; in both
cases every `/` of the formatted string becomes `\`. -/
def wsl_path_lin2win (env : Env) (wc : WindowsConfig) (path : String) :
    Except Err String × List Event :=
  match pathStripRoot path wc.root with
  | some rest =>
    (.ok ⟨("C:\\".data ++ joinCompsWith '/' rest).map fun c => if c = '/' then '\\' else c⟩, [])
  | none =>
    match get_wsl_distro_name env wc with
    | (.error e, evs) => (.error e, evs)
    | (.ok wsl_hostname, evs) =>
      (.ok ⟨("\\\\wsl$\\".data ++ wsl_hostname.data ++ path.data).map
        fun c => if c = '/' then '\\' else c⟩, evs)

/-- `wsl::wsl_path_win2lin`: only `C:\` (or `c:\`) prefixed paths are
supported; the rest is joined, `/`-separated, under the Windows root. -/
def wsl_path_win2lin (wc : WindowsConfig) (path : String) : Except Err String :=
  if 3 < path.data.length then
    let pfx := path.data.take 3
    if pfx = "C:\\".data ∨ pfx = "c:\\".data then
      .ok (pathJoin wc.root ⟨(path.data.drop 3).map fun c => if c = '\\' then '/' else c⟩)
    else .error ⟨.NotFound, "invalid windows path"⟩
  else .error ⟨.NotFound, "invalid windows path"⟩

/-- `wsl::wsl_get_filepath_from_url`: `file` URLs without a host are
converted via `to_file_path` and `wsl_path_lin2win`; `file` URLs with a host
become `\\wsl$<path-with-backslashes>`; other URLs pass through as strings. -/
def wsl_get_filepath_from_url (env : Env) (wc : WindowsConfig) (target : TargetType) :
    Except Err String × List Event :=
  if target.scheme = "file" then
    match target.host with
    | none =>
      match target.filePath with
      | none => (.error ⟨.NotFound, "invalid path"⟩, [])
      | some p => wsl_path_lin2win env wc p
    | some _ =>
      (.ok ⟨"\\\\wsl$".data ++ replaceChar '/' ['\\'] target.path.data⟩, [])
  else (.ok target.asStr, [])

/-- `wsl::parse_wsl_cmdline`: compute the Windows-side file path, tokenize
the registry command line with the quote-aware `for_each_token`, substitute
the path for `%0`/`%1` tokens, and map the program token back to a Linux
path. -/
def parse_wsl_cmdline (env : Env) (wc : WindowsConfig) (cmdline : String)
    (target : TargetType) : Except Err (String × List String) × List Event :=
  match wsl_get_filepath_from_url env wc target with
  | (.error e, evs) => (.error e, evs)
  | (.ok fp, evs) =>
    let tokens := (for_each_token_list cmdline).map fun t =>
      if t = "%0" || t = "%1" then fp else t
    match tokens with
    | [] => (.error ⟨.NotFound, "invalid command"⟩, evs)
    | t0 :: rest =>
      match wsl_path_win2lin wc t0 with
      | .error e => (.error e, evs)
      | .ok progpath => (.ok (progpath, rest), evs)

/-- The fixed argument list `get_wsl_windows_browser_ps` passes to
powershell (the query script itself goes through stdin). -/
def wslPsArgs : List String :=
  ["-NoLogo", "-NoProfile", "-NonInteractive", "-Command", "-"]

/-- `wsl::get_wsl_windows_browser_ps`: spawn powershell with the
`AssocQueryString` script on stdin (a resolution-time `query` spawn) and
parse the reported default-browser command line. -/
def get_wsl_windows_browser_ps (env : Env) (wc : WindowsConfig) (target : TargetType) :
    Except Err (String × List String) × List Event :=
  match wc.powershell_path with
  | none => (.error ⟨.NotFound, "powershell.exe error"⟩, [])
  | some ps_exe =>
    let ev := Event.query ps_exe wslPsArgs
    match env.cmdOutput ps_exe wslPsArgs with
    | .error e => (.error e, [ev])
    | .ok out =>
      let output : String := ⟨trimL out.data⟩
      if output = "" then (.error ⟨.NotFound, "powershell.exe error"⟩, [ev])
      else
        let r := parse_wsl_cmdline env wc output target
        (r.1, ev :: r.2)

/-- `wsl::get_wsl_windows_browser_cmd`: query `cmd.exe /Q /C "ftype http"`
(a resolution-time `query` spawn) and parse the command line. -/
def get_wsl_windows_browser_cmd (env : Env) (wc : WindowsConfig) (target : TargetType) :
    Except Err (String × List String) × List Event :=
  let args := ["/Q", "/C", "ftype http"]
  let ev := Event.query wc.cmd_path args
  match env.cmdOutput wc.cmd_path args with
  | .error e => (.error e, [ev])
  | .ok out =>
    let output : String := ⟨trimL out.data⟩
    if output = "" then (.error ⟨.NotFound, "cmd.exe error"⟩, [ev])
    else
      let r := parse_wsl_cmdline env wc output target
      (r.1, ev :: r.2)

/-- `unix.rs::try_wsl`: for http(s) targets, escalate through
`cmd.exe /c start`, `powershell.exe Start` and `wsl-open`; for `file`
targets on Linux (default features), discover the Windows-registered browser
and run it on the translated path in the background. -/
def try_wsl (env : Env) (options : BrowserOptions) (target : TargetType) : MR :=
  if target.scheme = "http" ∨ target.scheme = "https" then
    let url := target.asStr
    mrOrElse (try_browser env options "cmd.exe"
        ["/c", "start", ⟨replaceChar '&' ['^', '&'] (replaceChar '^' ['^', '^'] url.data)⟩])
      fun _ =>
      mrOrElse (try_browser env options "powershell.exe"
          ["Start", ⟨replaceChar '&' ['"', '&', '"'] url.data⟩])
        fun _ => try_browser env options "wsl-open" [url]
  else if target.scheme = "file" ∧ env.os = .linux then
    match get_wsl_win_config env with
    | .error e => (some (.error e), [])
    | .ok wc =>
      match (if wc.powershell_path.isSome then get_wsl_windows_browser_ps env wc target
             else get_wsl_windows_browser_cmd env wc target) with
      | (.error e, evs) => (some (.error e), evs)
      | (.ok (prog, args), evs) =>
        let r := run_command env prog args true options
        (r.1, evs ++ r.2)
  else (some (.error ⟨.NotFound, "invalid browser"⟩), [])

/- ### `unix.rs`: the chain -/

/-- `unix.rs::try_flatpak`: http(s) only, via `xdg-open`. -/
def try_flatpak (env : Env) (options : BrowserOptions) (target : TargetType) : MR :=
  if target.scheme = "http" ∨ target.scheme = "https" then
    try_browser env options "xdg-open" [target.asStr]
  else (some (.error ⟨.NotFound, "only http urls supported"⟩), [])

/-- The desktop-environment-specific step of `open_browser_default`: the
`match guess_desktop_env()` block, with `r` the error the preceding `or_else`
passed in (returned unchanged for unknown desktops). -/
def desktop_specific (env : Env) (options : BrowserOptions) (target : TargetType)
    (url : String) (r : Err) : MR :=
  match guess_desktop_env env with
  | "kde" =>
    mrOrElse (try_browser env options "kde-open" [url]) fun _ =>
      mrOrElse (try_browser env options "kde-open5" [url]) fun _ =>
        try_browser env options "kfmclient" ["newTab", url]
  | "gnome" =>
    mrOrElse (try_browser env options "gio" ["open", url]) fun _ =>
      mrOrElse (try_browser env options "gvfs-open" [url]) fun _ =>
        try_browser env options "gnome-open" [url]
  | "mate" =>
    mrOrElse (try_browser env options "gio" ["open", url]) fun _ =>
      mrOrElse (try_browser env options "gvfs-open" [url]) fun _ =>
        try_browser env options "mate-open" [url]
  | "xfce" =>
    mrOrElse (try_browser env options "exo-open" [url]) fun _ =>
      mrOrElse (try_browser env options "gio" ["open", url]) fun _ =>
        try_browser env options "gvfs-open" [url]
  | "wsl" => try_wsl env options target
  | "flatpak" => try_flatpak env options target
  | _ => (some (.error r), [])

/-- The final `map_err` of `open_browser_default`: replace any error with the
aggregated one. -/
def mrMapErr (a : MR) (e : Err) : MR :=
  match a.1 with
  | some (.error _) => (some (.error e), a.2)
  | _ => a

/-- The aggregated error `open_browser_default` reports when every strategy
failed. -/
def noBrowsersErr : Err :=
  ⟨.NotFound, "No valid browsers detected. You can specify one in BROWSER environment variable"⟩

/-- `unix.rs::open_browser_default`: `$BROWSER`, Haiku `open`, XDG settings,
desktop-specific openers, then `x-www-browser`, chained with `or_else`, the
final error mapped to the aggregated NotFound. -/
def open_browser_default (env : Env) (target : TargetType) (options : BrowserOptions) : MR :=
  let url := target.asStr
  mrMapErr
    (mrOrElse
      (mrOrElse
        (mrOrElse
          (mrOrElse (try_with_browser_env env options url) fun _ =>
            try_haiku env options url)
          fun _ => try_xdg env options url)
        fun r => desktop_specific env options target url r)
      fun _ => try_browser env options "x-www-browser" [url])
    noBrowsersErr

/-- Browser choices (the crate's `Browser` enum). -/
inductive Browser where
  | Default
  | Firefox
  | InternetExplorer
  | Chrome
  | Opera
  | Safari
deriving DecidableEq

/-- `unix.rs::open_browser_internal`: only the default browser is supported
on Unix. -/
def open_browser_internal (env : Env) (browser : Browser) (target : TargetType)
    (options : BrowserOptions) : MR :=
  match browser with
  | .Default => open_browser_default env target options
  | _ => (some (.error ⟨.NotFound, "only default browser supported"⟩), [])

/-- Modelled from the spec: the fallback-chain driver as the spec describes
it — strategies are tried in the listed order, each step either fully
succeeds (overall success returned immediately, short-circuiting remaining
steps, so their traces never happen) or fails and the next step is tried,
and exhaustion yields the single aggregated NotFound error.  A panic
(modelled `none`) propagates.  Used to state that the translated
`open_browser_default` refines this driver. -/
def chainRun : List MR → MR
  | [] => (some (.error noBrowsersErr), [])
  | (none, tr) :: _ => (none, tr)
  | (some (.ok _), tr) :: _ => (some (.ok ()), tr)
  | (some (.error _), tr) :: rest =>
    let r := chainRun rest
    (r.1, tr ++ r.2)

/- ### Traces and the dry-run/wet-run correspondence -/

/-- Is the event a handler launch (as opposed to a resolution query)? -/
def isLaunchEv : Event → Bool
  | .launch _ _ => true
  | .query _ _ => false

/-- The trace contains a handler-launch spawn. -/
def hasLaunchB (tr : List Event) : Bool := tr.any isLaunchEv

/-- The trace contains no handler-launch spawn. -/
def noLaunchB (tr : List Event) : Bool := !hasLaunchB tr

/-- The given options with `dry_run` forced on. -/
def dryO (o : BrowserOptions) : BrowserOptions := { o with dry_run := true }

/-- The given options with `dry_run` forced off. -/
def wetO (o : BrowserOptions) : BrowserOptions := { o with dry_run := false }

/-- Correspondence between the dry-run result `d` and the wet-run result `w`
of the same code over the same environment: the dry run succeeds exactly when
the wet run reaches a handler launch, the dry run panics exactly when the wet
run panics without having launched anything, a wet success always involved a
launch, and a dry run never launches. -/
def StratRel (d w : MR) : Prop :=
  (d.1 = some (.ok ()) ↔ hasLaunchB w.2 = true)
  ∧ (d.1 = none ↔ (w.1 = none ∧ hasLaunchB w.2 = false))
  ∧ (w.1 = some (.ok ()) → hasLaunchB w.2 = true)
  ∧ noLaunchB d.2 = true

/-- Stronger, per-code-path correspondence: either both runs reach the final
`run_command` after an identical launch-free prefix `tr` (the dry run then
succeeds without an event, the wet run records the launch), or neither
reaches it and the two runs are identical, launch-free and unsuccessful. -/
def DryWet (d w : MR) : Prop :=
  (∃ p a res tr, noLaunchB tr = true
      ∧ d = (some (.ok ()), tr) ∧ w = (some res, tr ++ [Event.launch p a]))
  ∨ (d = w ∧ noLaunchB w.2 = true ∧ ∀ u, w.1 ≠ some (.ok u))

/- ### Concrete environments used by counterexamples and witnesses -/

/-- An environment in which nothing exists and every external operation
fails. -/
def emptyEnv : Env where
  getVar _ := none
  isExecFile _ := false
  fileExists _ := false
  isFile _ := false
  fileLines _ := .error ⟨.NotFound, "no such file"⟩
  homeDir := none
  os := .linux
  wslInterop := false
  cmdOutput _ _ := .error ⟨.Other, "io error"⟩
  spawnResult _ _ := .error ⟨.Other, "spawn failed"⟩
  statusResult _ _ := .error ⟨.Other, "status failed"⟩
  canonicalize _ := .error ⟨.Other, "io error"⟩

/-- A plain http target. -/
def targetHttp : TargetType :=
  ⟨"http", some "example.com", "/", "http://example.com/", none⟩

/-- Environment where `xdg-settings` is installed and names a default
browser, but no `.desktop` config exists anywhere. -/
def envC3 : Env :=
  { emptyEnv with
    getVar := fun n => if n = "PATH" then some "/usr/bin" else none
    isExecFile := fun p => p = "/usr/bin/xdg-settings"
    cmdOutput := fun p _ =>
      if p = "/usr/bin/xdg-settings" then .ok "firefox.desktop\n"
      else .error ⟨.Other, "io error"⟩
    homeDir := some "/home/u" }

/-- A `.desktop` file with `Terminal=true`, so its `Exec` command runs in
the foreground (and exits unsuccessfully in `envC4`). -/
def linesC4 : List String := ["[Desktop Entry]", "Exec=mybrowser %u", "Terminal=true"]

/-- A sibling `.desktop` file whose `Exec` would spawn successfully. -/
def linesC4b : List String := ["[Desktop Entry]", "Exec=goodbrowser %u"]

/-- Environment where the xdg default browser's config is found in the first
data directory but its launch fails with a non-NotFound error, while a
working config sits in the second data directory; nothing else resolves. -/
def envC4 : Env :=
  { emptyEnv with
    getVar := fun n =>
      if n = "PATH" then some "/usr/bin"
      else if n = "XDG_DATA_HOME" then some "/home/u/.local/share"
      else if n = "XDG_DATA_DIRS" then some "/usr/share"
      else none
    isExecFile := fun p =>
      p = "/usr/bin/xdg-settings" || p = "/usr/bin/mybrowser" || p = "/usr/bin/goodbrowser"
    fileExists := fun p =>
      p = "/home/u/.local/share/applications/firefox.desktop"
        || p = "/usr/share/applications/firefox.desktop"
    fileLines := fun p =>
      if p = "/home/u/.local/share/applications/firefox.desktop" then .ok linesC4
      else if p = "/usr/share/applications/firefox.desktop" then .ok linesC4b
      else .error ⟨.NotFound, "no such file"⟩
    cmdOutput := fun p _ =>
      if p = "/usr/bin/xdg-settings" then .ok "firefox.desktop\n"
      else .error ⟨.Other, "io error"⟩
    statusResult := fun _ _ => .ok false
    spawnResult := fun _ _ => .ok () }

/-- A `.desktop` file containing `Hidden=true` followed by `Hidden=false`
and a valid `Exec`. -/
def linesC5 : List String := ["[Desktop Entry]", "Hidden=true", "Hidden=false", "Exec=b %u"]

/-- A `.desktop` file whose (only) `Hidden` key is `true`. -/
def linesC5h : List String := ["[Desktop Entry]", "Hidden=true", "Exec=b %u"]

/-- Environment holding the two `.desktop` files above and an executable
`/bin/b`. -/
def envC5 : Env :=
  { emptyEnv with
    getVar := fun n => if n = "PATH" then some "/bin" else none
    isExecFile := fun p => p = "/bin/b"
    fileLines := fun p =>
      if p = "/cfg/app.desktop" then .ok linesC5
      else if p = "/cfg/hidden.desktop" then .ok linesC5h
      else .error ⟨.NotFound, "no such file"⟩ }

/-- Environment whose `BROWSER` variable is a single space. -/
def envC10 : Env :=
  { emptyEnv with getVar := fun n => if n = "BROWSER" then some " " else none }

/-- Environment where only `WSL_DISTRO_NAME=Ubuntu` is set. -/
def envWslU : Env :=
  { emptyEnv with getVar := fun n => if n = "WSL_DISTRO_NAME" then some "Ubuntu" else none }

/-- A Windows config rooted at `/mnt/c`. -/
def wcMntC : WindowsConfig := ⟨"/mnt/c", "/mnt/c/windows/system32/cmd.exe", none⟩

/- ## Helper lemmas on the string model -/

theorem isSubstrOf_cons_eq (pat : List Char) (c : Char) (rest : List Char) :
    isSubstrOf pat (c :: rest) = (pat.isPrefixOf (c :: rest) || isSubstrOf pat rest) := rfl

/-- A single pass of `str::replace` leaves a pattern-free string unchanged. -/
theorem replace2_of_not_substr (p0 p1 : Char) (rep : List Char) :
    ∀ s : List Char, isSubstrOf [p0, p1] s = false → replace2 p0 p1 rep s = s := by
  intro s
  induction s with
  | nil => intro _; rfl
  | cons c l ih =>
    intro h
    rw [isSubstrOf_cons_eq, Bool.or_eq_false_iff] at h
    cases l with
    | nil => rfl
    | cons d l2 =>
      have hcd : ¬(c = p0 ∧ d = p1) := by
        rintro ⟨h1, h2⟩
        subst h1; subst h2
        simp [List.isPrefixOf] at h
      rw [replace2, if_neg hcd, ih h.2]

/-- The single left-to-right pass of `str::replace` around one occurrence of
the pattern: everything before it is untouched, the replacement is emitted
and never rescanned, and the scan continues after the occurrence. -/
theorem replace2_append_pat (p0 p1 : Char) (rep : List Char) (hne : p0 ≠ p1) :
    ∀ t1 t2 : List Char, isSubstrOf [p0, p1] t1 = false →
      replace2 p0 p1 rep (t1 ++ p0 :: p1 :: t2) = t1 ++ rep ++ replace2 p0 p1 rep t2 := by
  intro t1
  induction t1 with
  | nil =>
    intro t2 _
    show replace2 p0 p1 rep (p0 :: p1 :: t2) = _
    rw [replace2, if_pos ⟨rfl, rfl⟩]
    simp
  | cons c t1' ih =>
    intro t2 h
    rw [isSubstrOf_cons_eq, Bool.or_eq_false_iff] at h
    cases t1' with
    | nil =>
      have hc : ¬(c = p0 ∧ p0 = p1) := fun hx => hne hx.2
      show replace2 p0 p1 rep (c :: p0 :: p1 :: t2) = _
      rw [replace2, if_neg hc, replace2, if_pos ⟨rfl, rfl⟩]
      simp
    | cons d t1'' =>
      have hcd : ¬(c = p0 ∧ d = p1) := by
        rintro ⟨h1, h2⟩
        subst h1; subst h2
        simp [List.isPrefixOf] at h
      show replace2 p0 p1 rep (c :: d :: (t1'' ++ p0 :: p1 :: t2)) = _
      rw [replace2, if_neg hcd]
      have hr := ih t2 h.2
      simp only [List.cons_append] at hr ⊢
      rw [hr]

/- ## C7: substitution order in `$BROWSER` template expansion -/

/-- C7 (corrected).  The three `%`-substitutions of `try_with_browser_env`
are applied in the fixed source order `%s`, then `%c`, then `%%`, each as one
simultaneous left-to-right pass: a literal `%s` inside the URL value is never
re-expanded by the `%s` pass (second conjunct: the scan continues after the
inserted URL).  The claimed order-independence fails (see the
counterexample): the later `%c` and `%%` passes do operate on text the URL
introduced. -/
theorem claim_C7_substitution_order (browser url : String) :
    expand_browser_template browser url
      = ⟨replace2 '%' '%' ['%'] (replace2 '%' 'c' [':'] (replace2 '%' 's' url.data browser.data))⟩
    ∧ (∀ t1 t2 : List Char, isSubstrOf ['%', 's'] t1 = false →
        replace2 '%' 's' url.data (t1 ++ '%' :: 's' :: t2)
          = t1 ++ url.data ++ replace2 '%' 's' url.data t2) := by
  refine ⟨rfl, fun t1 t2 h => ?_⟩
  exact replace2_append_pat '%' 's' url.data (by decide) t1 t2 h

/-- Witness for C7: the `%s` pass around a concrete occurrence, with a URL
that itself contains `%s`; the embedded `%s` is not expanded again. -/
theorem claim_C7_witness :
    replace2 '%' 's' "a%sb".data ("f ".data ++ '%' :: 's' :: " x".data)
      = "f ".data ++ "a%sb".data ++ " x".data := by
  have h := (claim_C7_substitution_order "f %s x" "a%sb").2 "f ".data " x".data (by decide)
  rw [h]
  decide

/-- Counterexample for C7 as stated: on template `%%s` the result depends on
the order of the passes (`%s` first gives `%u`, `%%` first gives `u`), and a
`%c` inside the URL value is substituted by the later `%c` pass. -/
theorem claim_C7_counterexample :
    expand_browser_template "%%s" "u"
        ≠ ⟨replace2 '%' 's' "u".data (replace2 '%' 'c' [':'] (replace2 '%' '%' ['%'] "%%s".data))⟩
    ∧ expand_browser_template "%%s" "u" = "%u"
    ∧ expand_browser_template "b %s" "a%cb" = "b a:b" := by
  refine ⟨by decide, by decide, by decide⟩

/- ## C2: the URL in the `$BROWSER` candidate's argument list -/

/-- C2 (corrected).  For a `$BROWSER` candidate template: the `%s` pass
substitutes the URL simultaneously for every occurrence (first conjunct); if
the template contains `%s` the URL is not additionally appended, the
arguments being exactly the expansion's trailing tokens (second conjunct);
if it lacks `%s` the URL is appended as exactly one trailing argument (third
conjunct). -/
theorem claim_C2_url_in_argument_list (browser url : String) :
    (∀ t1 t2 : List Char, isSubstrOf ['%', 's'] t1 = false → isSubstrOf ['%', 's'] t2 = false →
      replace2 '%' 's' url.data (t1 ++ '%' :: 's' :: t2) = t1 ++ url.data ++ t2)
    ∧ (isSubstrOf ['%', 's'] browser.data = true →
        ∀ c rest, splitAsciiWhitespace (expand_browser_template browser url) = c :: rest →
          browser_env_cmd browser url = some (c, rest))
    ∧ (isSubstrOf ['%', 's'] browser.data = false →
        ∀ c rest, splitAsciiWhitespace (expand_browser_template browser url) = c :: rest →
          browser_env_cmd browser url = some (c, rest ++ [url])) := by
  refine ⟨fun t1 t2 h1 h2 => ?_, fun hs c rest htok => ?_, fun hs c rest htok => ?_⟩
  · rw [replace2_append_pat '%' 's' url.data (by decide) t1 t2 h1,
      replace2_of_not_substr '%' 's' url.data t2 h2]
  · simp only [browser_env_cmd, htok, hs]
    simp
  · simp only [browser_env_cmd, htok, hs]
    simp

/-- Witness for C2: a template with one `%s` embeds the URL without
appending it; a template without `%s` gets the URL appended once. -/
theorem claim_C2_witness :
    browser_env_cmd "f %s" "u" = some ("f", ["u"])
    ∧ browser_env_cmd "f" "u" = some ("f", ["u"]) := by
  constructor
  · exact (claim_C2_url_in_argument_list "f %s" "u").2.1 (by decide) "f" ["u"] (by decide)
  · exact (claim_C2_url_in_argument_list "f" "u").2.2 (by decide) "f" [] (by decide)

/-- Counterexample for C2 as stated: with template `f %s %s` the URL occurs
twice in the argument list, not exactly once. -/
theorem claim_C2_counterexample :
    browser_env_cmd "f %s %s" "u" = some ("f", ["u", "u"])
    ∧ List.count "u" ["u", "u"] ≠ 1 := by
  refine ⟨by decide, by decide⟩

/- ## C10: `cmdarr[0]` on a whitespace-only `$BROWSER` candidate -/

/-- C10 is refuted by the code: the candidate `" "` (a single space) is
non-empty, so it is processed, but its expansion tokenizes to no tokens at
all, and the `cmdarr[0]` indexing panics (modelled `none`); the panic
reaches the public open call. -/
theorem claim_C10_whitespace_candidate_panics :
    (" " : String) ≠ ""
    ∧ splitOnChar ':' " " = [" "]
    ∧ splitAsciiWhitespace (expand_browser_template " " "http://example.com/") = []
    ∧ browser_env_cmd " " "http://example.com/" = none
    ∧ (open_browser_default envC10 targetHttp {}).1 = none := by
  refine ⟨by decide, by decide, by decide, by decide, by decide⟩

/- ## C6: `.desktop` `Exec` tokenization and field codes -/

/-- C6 (corrected).  The `Exec` value is tokenized by plain ASCII-whitespace
splitting (no quote handling — the quote-aware `for_each_token` is used only
for the WSL registry command line, see the counterexample); each argument
token equal to a field code `%u`/`%U`/`%f`/`%F` is replaced by the URL, and
the URL is appended as one trailing argument exactly when no argument token
was a field code. -/
theorem claim_C6_exec_tokenization (cmdline url c : String) (rest : List String)
    (htok : splitAsciiWhitespace cmdline = c :: rest) :
    (rest.any is_xdg_field_code = true →
      xdg_build_cmd cmdline url
        = some (c, rest.map fun a => if is_xdg_field_code a then url else a))
    ∧ (rest.any is_xdg_field_code = false →
      xdg_build_cmd cmdline url = some (c, rest ++ [url])) := by
  constructor
  · intro hany
    simp [xdg_build_cmd, htok, hany]
  · intro hany
    have hmap : (rest.map fun a => if is_xdg_field_code a then url else a) = rest := by
      conv_rhs => rw [← List.map_id rest]
      apply List.map_congr_left
      intro a ha
      have hf := List.any_eq_false.mp hany a ha
      simp [hf]
    simp [xdg_build_cmd, htok, hany, hmap]

/-- Witness for C6: the repository test's scenario `Exec=<b> p1 %u p3`
(`%u` replaced in place, nothing appended), and a code-free `Exec` (URL
appended once). -/
theorem claim_C6_witness :
    xdg_build_cmd "b p1 %u p3" "/tmp/t.txt" = some ("b", ["p1", "/tmp/t.txt", "p3"])
    ∧ xdg_build_cmd "b p" "/tmp/t.txt" = some ("b", ["p", "/tmp/t.txt"]) := by
  constructor
  · exact (claim_C6_exec_tokenization "b p1 %u p3" "/tmp/t.txt" "b" ["p1", "%u", "p3"]
      (by decide)).1 (by decide)
  · exact (claim_C6_exec_tokenization "b p" "/tmp/t.txt" "b" ["p"]
      (by decide)).2 (by decide)

/-- Counterexample for C6 as stated: a double-quoted `Exec` program path
containing a space does not form a single token — the whitespace tokenizer
splits it (only the WSL-side `for_each_token` would keep it together). -/
theorem claim_C6_counterexample :
    splitAsciiWhitespace "\"/opt/my app/browser\" %u" = ["\"/opt/my", "app/browser\"", "%u"]
    ∧ xdg_build_cmd "\"/opt/my app/browser\" %u" "x" = some ("\"/opt/my", ["app/browser\"", "x"])
    ∧ for_each_token_list "\"/opt/my app/browser\" %u" = ["/opt/my app/browser", "%u"]
    ∧ ("\"/opt/my" : String) ≠ "/opt/my app/browser" := by
  refine ⟨by decide, by decide, by decide, by decide⟩

/- ## C9: last occurrence wins in `.desktop` parsing -/

/-- C9 (confirmed).  Inside a `[Desktop Entry]` section each
`Exec`/`Hidden`/`Terminal` line overwrites the previously recorded value
(so the last occurrence in file order wins), a `[Desktop Entry]` header
always re-opens the section, and concretely `Hidden=true` followed by
`Hidden=false` leaves the entry un-hidden while an `Exec` after a second
`[Desktop Entry]` header still counts. -/
theorem claim_C9_last_occurrence_wins :
    (∀ (st : XdgParseState) (v : String), st.in_desktop_entry = true →
      xdg_parse_step st ("Hidden=" ++ v) = { st with hidden := v == "true" })
    ∧ (∀ (st : XdgParseState) (v : String), st.in_desktop_entry = true →
      xdg_parse_step st ("Exec=" ++ v) = { st with cmdline := some v })
    ∧ (∀ (st : XdgParseState) (v : String), st.in_desktop_entry = true →
      xdg_parse_step st ("Terminal=" ++ v) = { st with requires_terminal := v == "true" })
    ∧ (∀ st : XdgParseState, xdg_parse_step st "[Desktop Entry]" = { st with in_desktop_entry := true })
    ∧ xdg_parse ["[Desktop Entry]", "Hidden=true", "Hidden=false", "Exec=a",
        "[Other Entry]", "Exec=zzz", "[Desktop Entry]", "Exec=b"]
      = ⟨true, false, some "b", false⟩ := by
  refine ⟨?_, ?_, ?_, fun st => rfl, by decide⟩
  · intro st v h
    obtain ⟨vd⟩ := v
    have hne : ('H' :: 'i' :: 'd' :: 'd' :: 'e' :: 'n' :: '=' :: vd) ≠ "[Desktop Entry]".data := by
      intro hEq
      injection hEq with h1 _
      exact absurd h1 (by decide)
    show xdg_parse_step st ⟨'H' :: 'i' :: 'd' :: 'd' :: 'e' :: 'n' :: '=' :: vd⟩ = _
    simp only [xdg_parse_step, hne, headIs, h, find_char_idx]
    simp
  · intro st v h
    obtain ⟨vd⟩ := v
    have hne : ('E' :: 'x' :: 'e' :: 'c' :: '=' :: vd) ≠ "[Desktop Entry]".data := by
      intro hEq
      injection hEq with h1 _
      exact absurd h1 (by decide)
    show xdg_parse_step st ⟨'E' :: 'x' :: 'e' :: 'c' :: '=' :: vd⟩ = _
    simp only [xdg_parse_step, hne, headIs, h, find_char_idx]
    simp
  · intro st v h
    obtain ⟨vd⟩ := v
    have hne : ('T' :: 'e' :: 'r' :: 'm' :: 'i' :: 'n' :: 'a' :: 'l' :: '=' :: vd)
        ≠ "[Desktop Entry]".data := by
      intro hEq
      injection hEq with h1 _
      exact absurd h1 (by decide)
    show xdg_parse_step st ⟨'T' :: 'e' :: 'r' :: 'm' :: 'i' :: 'n' :: 'a' :: 'l' :: '=' :: vd⟩ = _
    simp only [xdg_parse_step, hne, headIs, h, find_char_idx]
    simp

/-- Witness for C9: a `Hidden=false` line overwrites an earlier
`Hidden=true` inside the section. -/
theorem claim_C9_witness :
    xdg_parse_step ⟨true, true, none, false⟩ ("Hidden=" ++ "false") = ⟨true, false, none, false⟩ := by
  have h := claim_C9_last_occurrence_wins.1 ⟨true, true, none, false⟩ "false" rfl
  rw [h]
  decide

/- ## C5: `Hidden=true` entries -/

/-- C5 (corrected).  When the `.desktop` scan ends with `hidden = true`
(i.e. the last `Hidden` line inside `[Desktop Entry]` sections has value
exactly `true`), opening via the entry returns the NotFound error
`xdg config is hidden` without spawning anything, regardless of any `Exec`
line.  (As stated, the claim fails: a later `Hidden=false` line overwrites
an earlier `Hidden=true`; see the counterexample.) -/
theorem claim_C5_hidden_entry_not_found (env : Env) (cfg : String) (o : BrowserOptions)
    (url : String) (lines : List String) (hf : env.fileLines cfg = .ok lines)
    (hh : (xdg_parse lines).hidden = true) :
    open_using_xdg_config env cfg o url
      = (some (.error ⟨.NotFound, "xdg config is hidden"⟩), []) := by
  simp [open_using_xdg_config, hf, hh]

/-- Witness for C5: a file whose only `Hidden` line is `Hidden=true` is
treated as absent even though it has a valid `Exec`. -/
theorem claim_C5_witness :
    open_using_xdg_config envC5 "/cfg/hidden.desktop" {} "u"
      = (some (.error ⟨.NotFound, "xdg config is hidden"⟩), []) :=
  claim_C5_hidden_entry_not_found envC5 "/cfg/hidden.desktop" {} "u" linesC5h rfl (by decide)

/-- Counterexample for C5 as stated: a file that does contain a
`Hidden=true` line (followed by `Hidden=false`) opens successfully instead
of returning NotFound. -/
theorem claim_C5_counterexample :
    linesC5.contains "Hidden=true" = true
    ∧ open_using_xdg_config envC5 "/cfg/app.desktop" { dry_run := true } "u"
        = (some (.ok ()), []) := by
  refine ⟨by decide, by decide⟩

/- ## C4: non-NotFound xdg launch errors -/

/-- C4 (corrected).  First conjunct: once a config file has been found in a
directory, a launch failure of kind other than NotFound makes the XDG
strategy return that error immediately — the remaining sibling directories
(universally quantified `rest`) are never examined.  Second conjunct: the
open operation as a whole nevertheless falls through to the later
strategies, and when they all fail the caller receives the generic
aggregated NotFound error, not the xdg error (refuting the claim's
"surfaced to the caller" part; see the counterexample). -/
theorem claim_C4_xdg_error_stops_sibling_search :
    (∀ (env : Env) (o : BrowserOptions) (url name d : String) (rest : List String)
      (found : Bool) (cfg : String) (e : Err) (tr : List Event),
      xdg_config_lookup env d name = some cfg →
      open_using_xdg_config env cfg o url = (some (.error e), tr) →
      e.kind ≠ ErrorKind.NotFound →
      xdg_dir_loop env o url name (d :: rest) found = (some (.error e), tr))
    ∧ (∀ (env : Env) (target : TargetType) (o : BrowserOptions)
      (e1 : Err) (t1 : List Event) (e2 : Err) (t2 : List Event)
      (e3 : Err) (t3 : List Event) (e5 : Err) (t5 : List Event),
      try_with_browser_env env o target.asStr = (some (.error e1), t1) →
      try_haiku env o target.asStr = (some (.error e2), t2) →
      try_xdg env o target.asStr = (some (.error e3), t3) →
      (∀ r, ∃ e4 t4, desktop_specific env o target target.asStr r = (some (.error e4), t4)) →
      try_browser env o "x-www-browser" [target.asStr] = (some (.error e5), t5) →
      (open_browser_default env target o).1 = some (.error noBrowsersErr)) := by
  constructor
  · intro env o url name d rest found cfg e tr hlook hopen hkind
    simp only [xdg_dir_loop, hlook, hopen]
    rw [if_pos hkind]
  · intro env target o e1 t1 e2 t2 e3 t3 e5 t5 h1 h2 h3 hds h5
    obtain ⟨e4, t4, h4⟩ := hds e3
    simp [open_browser_default, mrOrElse, mrMapErr, h1, h2, h3, h4, h5]

/-- Witness for C4: in `envC4` the failing first-directory config stops the
sibling search (the second directory holds a working config), and the whole
open reports the aggregated NotFound. -/
theorem claim_C4_witness :
    xdg_dir_loop envC4 {} "http://example.com/" "firefox.desktop"
        ("/home/u/.local/share" :: ["/usr/share"]) false
      = (some (.error ⟨.Other, "command present but exited unsuccessfully"⟩),
         [Event.launch "/usr/bin/mybrowser" ["http://example.com/"]])
    ∧ (open_browser_default envC4 targetHttp {}).1 = some (.error noBrowsersErr) := by
  constructor
  · exact claim_C4_xdg_error_stops_sibling_search.1 envC4 {} "http://example.com/"
      "firefox.desktop" "/home/u/.local/share" ["/usr/share"] false
      "/home/u/.local/share/applications/firefox.desktop"
      ⟨.Other, "command present but exited unsuccessfully"⟩
      [Event.launch "/usr/bin/mybrowser" ["http://example.com/"]]
      (by decide) (by decide) (by decide)
  · exact claim_C4_xdg_error_stops_sibling_search.2 envC4 targetHttp {}
      ⟨.NotFound, "No valid browser configured in BROWSER environment variable"⟩ []
      ⟨.NotFound, "Not on haiku"⟩ []
      ⟨.Other, "command present but exited unsuccessfully"⟩
      [Event.query "/usr/bin/xdg-settings" xdgSettingsArgs,
        Event.launch "/usr/bin/mybrowser" ["http://example.com/"]]
      notFoundCmdErr []
      (by decide) (by decide) (by decide) (fun r => ⟨r, [], rfl⟩) (by decide)

/-- Counterexample for C4 as stated: in `envC4` the XDG strategy fails with
an `Other`-kind error (a found config whose launch failed), a sibling
directory with a working config exists, yet the caller of the open operation
receives the generic NotFound error, not the xdg error. -/
theorem claim_C4_counterexample :
    try_xdg envC4 {} "http://example.com/"
      = (some (.error ⟨.Other, "command present but exited unsuccessfully"⟩),
         [Event.query "/usr/bin/xdg-settings" xdgSettingsArgs,
          Event.launch "/usr/bin/mybrowser" ["http://example.com/"]])
    ∧ envC4.fileExists "/usr/share/applications/firefox.desktop" = true
    ∧ (open_browser_default envC4 targetHttp {}).1 = some (.error noBrowsersErr)
    ∧ ErrorKind.Other ≠ ErrorKind.NotFound := by
  refine ⟨by decide, by decide, by decide, by decide⟩

/- ## C8: WSL Linux-to-Windows path translation -/

theorem splitCharRaw_ne_nil (sep : Char) : ∀ l : List Char, splitCharRaw sep l ≠ [] := by
  intro l
  induction l with
  | nil => simp [splitCharRaw]
  | cons c rest ih =>
    rw [splitCharRaw]
    cases h : splitCharRaw sep rest with
    | nil => exact absurd h ih
    | cons a t =>
      by_cases hc : c = sep <;> simp [hc]

theorem splitCharRaw_sep_cons (sep : Char) (l : List Char) :
    splitCharRaw sep (sep :: l) = [] :: splitCharRaw sep l := by
  rw [splitCharRaw]
  cases h : splitCharRaw sep l with
  | nil => exact absurd h (splitCharRaw_ne_nil sep l)
  | cons a t => simp

theorem splitCharRaw_append_free (sep : Char) :
    ∀ (x l : List Char) (a : List Char) (t : List (List Char)), sep ∉ x →
      splitCharRaw sep l = a :: t →
      splitCharRaw sep (x ++ l) = (x ++ a) :: t := by
  intro x
  induction x with
  | nil =>
    intro l a t _ h
    simpa using h
  | cons c x' ih =>
    intro l a t hx h
    have hc : c ≠ sep := fun he => hx (he ▸ List.mem_cons_self c x')
    have hx' : sep ∉ x' := fun he => hx (List.mem_cons_of_mem c he)
    have ih2 := ih l a t hx' h
    show splitCharRaw sep (c :: (x' ++ l)) = (c :: (x' ++ a)) :: t
    rw [splitCharRaw, ih2]
    simp [hc]

theorem splitCharRaw_free (sep : Char) (x : List Char) (hx : sep ∉ x) :
    splitCharRaw sep x = [x] := by
  have h := splitCharRaw_append_free sep x [] [] [] hx rfl
  simpa using h

theorem filter_empty_cons (t : List (List Char)) :
    (([] : List Char) :: t).filter (fun l => !l.isEmpty) = t.filter (fun l => !l.isEmpty) := rfl

theorem filter_nonempty_cons (c : List Char) (t : List (List Char)) (hc : c ≠ []) :
    (c :: t).filter (fun l => !l.isEmpty) = c :: t.filter (fun l => !l.isEmpty) := by
  cases c with
  | nil => exact absurd rfl hc
  | cons a l => rfl

/-- Splitting an absolute path rebuilt from valid components recovers
exactly those components. -/
theorem pathComps_roundtrip :
    ∀ comps : List (List Char), (∀ x ∈ comps, x ≠ [] ∧ '/' ∉ x) →
      pathComps ⟨'/' :: joinCompsWith '/' comps⟩ = comps := by
  intro comps
  induction comps with
  | nil => intro _; decide
  | cons c rest ih =>
    intro hv
    have hc := hv c (List.mem_cons_self c rest)
    have hvr : ∀ x ∈ rest, x ≠ [] ∧ '/' ∉ x := fun x hx => hv x (List.mem_cons_of_mem c hx)
    cases rest with
    | nil =>
      show ((splitCharRaw '/' ('/' :: joinCompsWith '/' [c])).filter fun l => !l.isEmpty) = [c]
      have hj : joinCompsWith '/' [c] = c := rfl
      rw [hj, splitCharRaw_sep_cons, splitCharRaw_free '/' c hc.2, filter_empty_cons,
        filter_nonempty_cons c [] hc.1]
      rfl
    | cons d rest' =>
      show ((splitCharRaw '/' ('/' :: joinCompsWith '/' (c :: d :: rest'))).filter
          fun l => !l.isEmpty) = c :: d :: rest'
      have hj : joinCompsWith '/' (c :: d :: rest') = c ++ '/' :: joinCompsWith '/' (d :: rest') :=
        rfl
      have hx : splitCharRaw '/' (c ++ '/' :: joinCompsWith '/' (d :: rest'))
          = (c ++ []) :: splitCharRaw '/' (joinCompsWith '/' (d :: rest')) :=
        splitCharRaw_append_free '/' c _ [] _ hc.2 (splitCharRaw_sep_cons '/' _)
      rw [List.append_nil] at hx
      rw [hj, splitCharRaw_sep_cons, hx, filter_empty_cons, filter_nonempty_cons _ _ hc.1]
      have ihr := ih hvr
      unfold pathComps at ihr
      rw [splitCharRaw_sep_cons, filter_empty_cons] at ihr
      rw [ihr]

/-- A component without `/` is untouched by the `/`-to-`\` character map. -/
theorem map_slash_free (x : List Char) (hx : '/' ∉ x) :
    (x.map fun c => if c = '/' then '\\' else c) = x := by
  conv_rhs => rw [← List.map_id x]
  apply List.map_congr_left
  intro a ha
  have hne : a ≠ '/' := fun h => hx (h ▸ ha)
  simp [hne]

/-- Mapping `/` to `\` over a `/`-joined list of `/`-free components gives
the `\`-joined list. -/
theorem join_map_slash :
    ∀ comps : List (List Char), (∀ x ∈ comps, '/' ∉ x) →
      ((joinCompsWith '/' comps).map fun c => if c = '/' then '\\' else c)
        = joinCompsWith '\\' comps := by
  intro comps
  induction comps with
  | nil => intro _; rfl
  | cons c rest ih =>
    intro hv
    have hc := hv c (List.mem_cons_self c rest)
    have hvr : ∀ x ∈ rest, '/' ∉ x := fun x hx => hv x (List.mem_cons_of_mem c hx)
    cases rest with
    | nil => exact map_slash_free c hc
    | cons d rest' =>
      show ((c ++ '/' :: joinCompsWith '/' (d :: rest')).map _) = c ++ '\\' :: _
      rw [List.map_append, map_slash_free c hc]
      simp only [List.map_cons]
      rw [ih hvr]
      simp

/-- C8 (confirmed).  For an absolute Linux path built from valid components:
if it lies under the Windows root it is rewritten as `C:\...` with `/`
replaced by `\`; otherwise it becomes the UNC path
`\\wsl$\<distro>\<path-with-backslashes>` with the distro taken from the
`WSL_DISTRO_NAME` variable when that is set (no powershell fallback query is
spawned). -/
theorem claim_C8_wsl_lin2win (env : Env) (wc : WindowsConfig)
    (rootComps comps : List (List Char)) (d : String)
    (hroot : wc.root = ⟨'/' :: joinCompsWith '/' rootComps⟩)
    (hvr : ∀ x ∈ rootComps, x ≠ [] ∧ '/' ∉ x)
    (hvc : ∀ x ∈ comps, x ≠ [] ∧ '/' ∉ x)
    (hd : env.getVar "WSL_DISTRO_NAME" = some d)
    (hdslash : '/' ∉ d.data) :
    (rootComps.isPrefixOf comps = true →
      wsl_path_lin2win env wc ⟨'/' :: joinCompsWith '/' comps⟩
        = (.ok ⟨"C:\\".data ++ joinCompsWith '\\' (comps.drop rootComps.length)⟩, []))
    ∧ (rootComps.isPrefixOf comps = false →
      wsl_path_lin2win env wc ⟨'/' :: joinCompsWith '/' comps⟩
        = (.ok ⟨"\\\\wsl$\\".data ++ d.data ++ '\\' :: joinCompsWith '\\' comps⟩, [])) := by
  have hcompsP : pathComps ⟨'/' :: joinCompsWith '/' comps⟩ = comps := pathComps_roundtrip comps hvc
  have hcompsR : pathComps wc.root = rootComps := by
    rw [hroot]; exact pathComps_roundtrip rootComps hvr
  have habs : pathIsAbs (⟨'/' :: joinCompsWith '/' comps⟩ : String) = pathIsAbs wc.root := by
    rw [hroot]; rfl
  have hCmap : ("C:\\".data.map fun c => if c = '/' then '\\' else c) = "C:\\".data := by decide
  have hUmap : ("\\\\wsl$\\".data.map fun c => if c = '/' then '\\' else c)
      = "\\\\wsl$\\".data := by decide
  constructor
  · intro hpre
    have hdropv : ∀ x ∈ comps.drop rootComps.length, '/' ∉ x :=
      fun x hx => (hvc x (List.drop_subset _ _ hx)).2
    have hstrip : pathStripRoot ⟨'/' :: joinCompsWith '/' comps⟩ wc.root
        = some (comps.drop rootComps.length) := by
      unfold pathStripRoot
      rw [hcompsP, hcompsR, habs]
      simp [hpre]
    simp only [wsl_path_lin2win, hstrip]
    rw [List.map_append, hCmap, join_map_slash _ hdropv]
  · intro hpre
    have hstrip : pathStripRoot ⟨'/' :: joinCompsWith '/' comps⟩ wc.root = none := by
      unfold pathStripRoot
      rw [hcompsP, hcompsR, habs]
      simp [hpre]
    simp only [wsl_path_lin2win, hstrip, get_wsl_distro_name, hd]
    rw [List.map_append, List.map_append, hUmap, map_slash_free d.data hdslash]
    simp only [List.map_cons, List.cons_append]
    rw [join_map_slash comps (fun x hx => (hvc x hx).2)]
    simp

/-- Witness for C8: the spec's scenario 4 — distro `Ubuntu`, a Linux-local
file outside the Windows-mounted root becomes
`\\wsl$\Ubuntu\home\user\f.html` — plus a path under the root becoming
`C:\Users\x\f.html`. -/
theorem claim_C8_witness :
    wsl_path_lin2win envWslU wcMntC "/home/user/f.html"
      = (.ok "\\\\wsl$\\Ubuntu\\home\\user\\f.html", [])
    ∧ wsl_path_lin2win envWslU wcMntC "/mnt/c/Users/x/f.html"
      = (.ok "C:\\Users\\x\\f.html", []) := by
  constructor
  · have h := (claim_C8_wsl_lin2win envWslU wcMntC ["mnt".data, "c".data]
      ["home".data, "user".data, "f.html".data] "Ubuntu"
      (by decide) (by decide) (by decide) (by decide) (by decide)).2 (by decide)
    rw [show ("/home/user/f.html" : String)
        = ⟨'/' :: joinCompsWith '/' ["home".data, "user".data, "f.html".data]⟩
      from by decide]
    rw [h]
    decide
  · have h := (claim_C8_wsl_lin2win envWslU wcMntC ["mnt".data, "c".data]
      ["mnt".data, "c".data, "Users".data, "x".data, "f.html".data] "Ubuntu"
      (by decide) (by decide) (by decide) (by decide) (by decide)).1 (by decide)
    rw [show ("/mnt/c/Users/x/f.html" : String)
        = ⟨'/' :: joinCompsWith '/'
            ["mnt".data, "c".data, "Users".data, "x".data, "f.html".data]⟩
      from by decide]
    rw [h]
    decide

/- ## C1: the fallback chain refines the spec's driver -/

/-- The desktop-specific step either ignores the error it was handed (every
recognised desktop), or returns it unchanged with no events (unknown
desktop). -/
theorem desktop_specific_error_cases (env : Env) (o : BrowserOptions) (t : TargetType)
    (u : String) (e1 e2 : Err) :
    desktop_specific env o t u e1 = desktop_specific env o t u e2
    ∨ (desktop_specific env o t u e1 = (some (.error e1), [])
      ∧ desktop_specific env o t u e2 = (some (.error e2), [])) := by
  unfold desktop_specific
  generalize guess_desktop_env env = de
  split
  · exact Or.inl rfl
  · exact Or.inl rfl
  · exact Or.inl rfl
  · exact Or.inl rfl
  · exact Or.inl rfl
  · exact Or.inl rfl
  · exact Or.inr ⟨rfl, rfl⟩

/-- C1 (confirmed).  `open_browser_default` equals the spec's driver
`chainRun` applied to the five strategies in their fixed order ($BROWSER
env, Haiku open, XDG settings, desktop-environment-specific openers,
x-www-browser): the driver returns overall success as soon as one strategy
succeeds, never evaluating (or tracing) a later strategy, and when every
strategy fails it returns the single aggregated NotFound error
`noBrowsersErr`.  The error value `e` handed to the desktop-specific element
is irrelevant, so it is universally quantified. -/
theorem claim_C1_fallback_chain (env : Env) (target : TargetType) (o : BrowserOptions)
    (e : Err) :
    open_browser_default env target o
      = chainRun [try_with_browser_env env o target.asStr,
          try_haiku env o target.asStr,
          try_xdg env o target.asStr,
          desktop_specific env o target target.asStr e,
          try_browser env o "x-www-browser" [target.asStr]] := by
  unfold open_browser_default
  rcases h1 : try_with_browser_env env o target.asStr with ⟨r1, t1⟩
  rcases r1 with _ | (e1 | u)
  · simp [mrOrElse, mrMapErr, chainRun, h1]
  · rcases h2 : try_haiku env o target.asStr with ⟨r2, t2⟩
    rcases r2 with _ | (e2 | u)
    · simp [mrOrElse, mrMapErr, chainRun, h1, h2]
    · rcases h3 : try_xdg env o target.asStr with ⟨r3, t3⟩
      rcases r3 with _ | (e3 | u)
      · simp [mrOrElse, mrMapErr, chainRun, h1, h2, h3, List.append_assoc]
      · rcases desktop_specific_error_cases env o target target.asStr e3 e with heq | ⟨ha, hb⟩
        · rcases h4 : desktop_specific env o target target.asStr e with ⟨r4, t4⟩
          have h4l : desktop_specific env o target target.asStr e3 = (r4, t4) :=
            heq.trans h4
          rcases r4 with _ | (e4 | u)
          · simp [mrOrElse, mrMapErr, chainRun, h1, h2, h3, h4, h4l, List.append_assoc]
          · rcases h5 : try_browser env o "x-www-browser" [target.asStr] with ⟨r5, t5⟩
            rcases r5 with _ | (e5 | u)
            · simp [mrOrElse, mrMapErr, chainRun, h1, h2, h3, h4, h4l, h5,
                List.append_assoc]
            · simp [mrOrElse, mrMapErr, chainRun, h1, h2, h3, h4, h4l, h5,
                List.append_assoc]
            · cases u
              simp [mrOrElse, mrMapErr, chainRun, h1, h2, h3, h4, h4l, h5,
                List.append_assoc]
          · cases u
            simp [mrOrElse, mrMapErr, chainRun, h1, h2, h3, h4, h4l, List.append_assoc]
        · rcases h5 : try_browser env o "x-www-browser" [target.asStr] with ⟨r5, t5⟩
          rcases r5 with _ | (e5 | u)
          · simp [mrOrElse, mrMapErr, chainRun, h1, h2, h3, ha, hb, h5, List.append_assoc]
          · simp [mrOrElse, mrMapErr, chainRun, h1, h2, h3, ha, hb, h5, List.append_assoc]
          · cases u
            simp [mrOrElse, mrMapErr, chainRun, h1, h2, h3, ha, hb, h5, List.append_assoc]
      · cases u
        simp [mrOrElse, mrMapErr, chainRun, h1, h2, h3, List.append_assoc]
    · cases u
      simp [mrOrElse, mrMapErr, chainRun, h1, h2]
  · cases u
    simp [mrOrElse, mrMapErr, chainRun, h1]

/- ## C3: dry-run never launches; success iff a handler is located -/

theorem hasLaunchB_append (a b : List Event) :
    hasLaunchB (a ++ b) = (hasLaunchB a || hasLaunchB b) := by
  simp [hasLaunchB]

theorem noLaunchB_iff {tr : List Event} : noLaunchB tr = true ↔ hasLaunchB tr = false := by
  simp [noLaunchB]

theorem noLaunchB_append {a b : List Event} (ha : noLaunchB a = true) (hb : noLaunchB b = true) :
    noLaunchB (a ++ b) = true := by
  rw [noLaunchB_iff, hasLaunchB_append, noLaunchB_iff.mp ha, noLaunchB_iff.mp hb]
  rfl

theorem noLaunchB_query (p : String) (a : List String) :
    noLaunchB [Event.query p a] = true := rfl

theorem hasLaunchB_query_cons (p : String) (a : List String) (tr : List Event) :
    hasLaunchB (Event.query p a :: tr) = hasLaunchB tr := by
  simp [hasLaunchB, isLaunchEv]

/-- Identical launch-free unsuccessful results are related. -/
theorem StratRel_same {m : MR} (hL : noLaunchB m.2 = true) (hok : ∀ u, m.1 ≠ some (.ok u)) :
    StratRel m m := by
  refine ⟨?_, ?_, fun h => absurd h (hok ()), hL⟩
  · constructor
    · intro h
      exact absurd h (hok ())
    · intro h
      rw [noLaunchB_iff.mp hL] at h
      exact absurd h (by simp)
  · constructor
    · intro h
      exact ⟨h, noLaunchB_iff.mp hL⟩
    · intro h
      exact h.1

/-- Possibly-different errors with launch-free traces are related. -/
theorem StratRel_err {e1 e2 : Err} {t1 t2 : List Event}
    (h1 : noLaunchB t1 = true) (h2 : noLaunchB t2 = true) :
    StratRel (some (.error e1), t1) (some (.error e2), t2) := by
  refine ⟨?_, ?_, by simp, h1⟩
  · simp [noLaunchB_iff.mp h2]
  · simp [noLaunchB_iff.mp h2]

theorem DryWet_to_StratRel {d w : MR} (h : DryWet d w) : StratRel d w := by
  rcases h with ⟨p, a, res, tr, hL, hd, hw⟩ | ⟨heq, hL, hok⟩
  · subst hd; subst hw
    refine ⟨?_, ?_, ?_, hL⟩
    · simp [hasLaunchB_append, hasLaunchB, isLaunchEv]
    · simp [hasLaunchB_append, hasLaunchB, isLaunchEv]
    · intro _
      simp [hasLaunchB_append, hasLaunchB, isLaunchEv]
  · subst heq
    exact StratRel_same hL fun u => hok u

theorem run_command_dry (env : Env) (p : String) (a : List String) (bg : Bool)
    (o : BrowserOptions) : run_command env p a bg (dryO o) = (some (.ok ()), []) := by
  simp [run_command, dryO]

theorem run_command_wet (env : Env) (p : String) (a : List String) (bg : Bool)
    (o : BrowserOptions) :
    ∃ res, run_command env p a bg (wetO o) = (some res, [Event.launch p a]) := by
  unfold run_command wetO
  simp only [Bool.false_eq_true, if_false]
  cases bg with
  | true => exact ⟨env.spawnResult p a, by simp⟩
  | false =>
    simp only [Bool.false_eq_true, if_false]
    cases h : env.statusResult p a with
    | error e => exact ⟨.error e, by simp⟩
    | ok b =>
      cases b with
      | true => exact ⟨.ok (), by simp⟩
      | false => exact ⟨.error ⟨.Other, "command present but exited unsuccessfully"⟩, by simp⟩

theorem DryWet_run_command (env : Env) (p : String) (a : List String) (bg : Bool)
    (o : BrowserOptions) :
    DryWet (run_command env p a bg (dryO o)) (run_command env p a bg (wetO o)) := by
  obtain ⟨res, hw⟩ := run_command_wet env p a bg o
  exact Or.inl ⟨p, a, res, [], rfl, run_command_dry env p a bg o, by simpa using hw⟩

theorem DryWet_for_matching (env : Env) (n : String) (opd opw : String → MR)
    (h : ∀ pb, DryWet (opd pb) (opw pb)) :
    DryWet (for_matching_path env n opd) (for_matching_path env n opw) := by
  unfold for_matching_path
  cases resolve_path env n with
  | none => exact Or.inr ⟨rfl, rfl, by simp⟩
  | some pb => exact h pb

theorem DryWet_try_browser (env : Env) (o : BrowserOptions) (n : String) (args : List String) :
    DryWet (try_browser env (dryO o) n args) (try_browser env (wetO o) n args) :=
  DryWet_for_matching env n _ _ fun pb => DryWet_run_command env pb args _ o

theorem DryWet_browser_env_candidate (env : Env) (o : BrowserOptions) (url b : String) :
    DryWet (browser_env_candidate env (dryO o) url b)
      (browser_env_candidate env (wetO o) url b) := by
  unfold browser_env_candidate
  cases browser_env_cmd b url with
  | none => exact Or.inr ⟨rfl, rfl, by simp⟩
  | some ca =>
    obtain ⟨c, args⟩ := ca
    exact DryWet_for_matching env c _ _ fun pb => DryWet_run_command env pb args _ o

/-- The or-else composition of related strategies is related. -/
theorem StratRel_orElse {d1 w1 : MR} {f g : Err → MR}
    (h1 : StratRel d1 w1) (h2 : ∀ e1 e2, StratRel (f e1) (g e2)) :
    StratRel (mrOrElse d1 f) (mrOrElse w1 g) := by
  obtain ⟨c1, c2, c3, c4⟩ := h1
  rcases d1 with ⟨rd, td⟩
  rcases w1 with ⟨rw, tw⟩
  simp only at c1 c2 c3 c4
  rcases rd with _ | (ed | ud)
  · -- dry panic: wet panics with no launch
    obtain ⟨hwn, hwl⟩ := c2.mp rfl
    subst hwn
    refine ⟨?_, ?_, ?_, c4⟩
    · simp [mrOrElse, hwl]
    · simp [mrOrElse, hwl]
    · simp [mrOrElse]
  · -- dry error: wet is an error with no launch, both continue
    have hnl : hasLaunchB tw = false := by
      cases h : hasLaunchB tw with
      | false => rfl
      | true => exact absurd (c1.mpr h) (by simp)
    rcases rw with _ | (ew | uw)
    · exact absurd (c2.mpr ⟨rfl, hnl⟩) (by simp)
    · obtain ⟨k1, k2, k3, k4⟩ := h2 ed ew
      refine ⟨?_, ?_, ?_, ?_⟩
      · simpa [mrOrElse, hasLaunchB_append, hnl] using k1
      · simpa [mrOrElse, hasLaunchB_append, hnl] using k2
      · simpa [mrOrElse, hasLaunchB_append, hnl] using k3
      · simp only [mrOrElse]
        exact noLaunchB_append c4 k4
    · cases uw
      rw [c3 rfl] at hnl
      exact absurd hnl (by simp)
  · -- dry success: wet has launched
    cases ud
    have hl := c1.mp rfl
    rcases rw with _ | (ew | uw)
    · refine ⟨?_, ?_, ?_, c4⟩
      · simp [mrOrElse, hl]
      · simp [mrOrElse, hl]
      · simp [mrOrElse]
    · refine ⟨?_, ?_, ?_, c4⟩
      · simp [mrOrElse, hasLaunchB_append, hl]
      · simp [mrOrElse, hasLaunchB_append, hl]
      · simp [mrOrElse, hasLaunchB_append, hl]
    · cases uw
      refine ⟨?_, ?_, ?_, c4⟩
      · simp [mrOrElse, hl]
      · simp [mrOrElse, hl]
      · simp [mrOrElse, hl]

theorem StratRel_browser_env_loop (env : Env) (o : BrowserOptions) (url : String) :
    ∀ bs : List String,
      StratRel (browser_env_loop env (dryO o) url bs) (browser_env_loop env (wetO o) url bs) := by
  intro bs
  induction bs with
  | nil =>
    unfold browser_env_loop
    exact StratRel_same (by decide) (by simp)
  | cons b rest ih =>
    unfold browser_env_loop
    by_cases hb : b = ""
    · rw [if_pos hb, if_pos hb]
      exact ih
    · rw [if_neg hb, if_neg hb]
      exact StratRel_orElse (DryWet_to_StratRel (DryWet_browser_env_candidate env o url b))
        fun _ _ => ih

theorem StratRel_try_with_browser_env (env : Env) (o : BrowserOptions) (url : String) :
    StratRel (try_with_browser_env env (dryO o) url) (try_with_browser_env env (wetO o) url) := by
  unfold try_with_browser_env
  exact StratRel_browser_env_loop env o url _

theorem DryWet_try_haiku (env : Env) (o : BrowserOptions) (url : String) :
    DryWet (try_haiku env (dryO o) url) (try_haiku env (wetO o) url) := by
  unfold try_haiku
  by_cases h : env.os = OsKind.haiku
  · rw [if_pos h, if_pos h]
    exact DryWet_try_browser env o "open" [url]
  · rw [if_neg h, if_neg h]
    exact Or.inr ⟨rfl, rfl, by simp⟩

theorem DryWet_open_using (env : Env) (cfg : String) (o : BrowserOptions) (url : String) :
    DryWet (open_using_xdg_config env cfg (dryO o) url)
      (open_using_xdg_config env cfg (wetO o) url) := by
  unfold open_using_xdg_config
  cases env.fileLines cfg with
  | error e => exact Or.inr ⟨rfl, rfl, by simp⟩
  | ok lines =>
    dsimp only
    by_cases hh : (xdg_parse lines).hidden = true
    · rw [if_pos hh, if_pos hh]
      exact Or.inr ⟨rfl, rfl, by simp⟩
    · rw [if_neg hh, if_neg hh]
      cases (xdg_parse lines).cmdline with
      | none => exact Or.inr ⟨rfl, rfl, by simp⟩
      | some cmdline =>
        dsimp only
        cases xdg_build_cmd cmdline url with
        | none => exact Or.inr ⟨rfl, rfl, by simp⟩
        | some ca =>
          obtain ⟨c, args⟩ := ca
          dsimp only
          exact DryWet_for_matching env c _ _ fun pb =>
            DryWet_run_command env pb args (!(xdg_parse lines).requires_terminal) o

theorem StratRel_prepend_noLaunch {d w : MR} (tr : List Event) (htr : noLaunchB tr = true)
    (h : StratRel d w) : StratRel (d.1, tr ++ d.2) (w.1, tr ++ w.2) := by
  obtain ⟨c1, c2, c3, c4⟩ := h
  refine ⟨?_, ?_, ?_, noLaunchB_append htr c4⟩
  · simpa [hasLaunchB_append, noLaunchB_iff.mp htr] using c1
  · simpa [hasLaunchB_append, noLaunchB_iff.mp htr] using c2
  · simpa [hasLaunchB_append, noLaunchB_iff.mp htr] using c3

theorem StratRel_xdg_dir_loop (env : Env) (o : BrowserOptions) (url name : String) :
    ∀ (dirs : List String) (found : Bool),
      StratRel (xdg_dir_loop env (dryO o) url name dirs found)
        (xdg_dir_loop env (wetO o) url name dirs found) := by
  intro dirs
  induction dirs with
  | nil =>
    intro found
    cases found
    · refine StratRel_same ?_ ?_
      · rfl
      · simp [xdg_dir_loop]
    · refine StratRel_same ?_ ?_
      · rfl
      · simp [xdg_dir_loop]
  | cons dd rest ih =>
    intro found
    unfold xdg_dir_loop
    cases hlook : xdg_config_lookup env dd name with
    | none => exact ih found
    | some cfg =>
      dsimp only
      rcases DryWet_open_using env cfg o url with ⟨p, a, res, tr, hL, hd, hw⟩ | ⟨heq, hL, hok⟩
      · rw [hd, hw]
        rcases res with ew | uw
        · -- wet: the launch failed
          dsimp only
          by_cases hk : ew.kind ≠ ErrorKind.NotFound
          · rw [if_pos hk]
            refine ⟨?_, ?_, ?_, hL⟩
            · simp [hasLaunchB_append, hasLaunchB, isLaunchEv]
            · simp [hasLaunchB_append, hasLaunchB, isLaunchEv]
            · simp
          · rw [if_neg hk]
            refine ⟨?_, ?_, ?_, hL⟩
            · simp [hasLaunchB_append, hasLaunchB, isLaunchEv]
            · simp [hasLaunchB_append, hasLaunchB, isLaunchEv]
            · intro _
              simp [hasLaunchB_append, hasLaunchB, isLaunchEv]
        · -- wet: the launch succeeded
          cases uw
          refine ⟨?_, ?_, ?_, hL⟩
          · simp [hasLaunchB_append, hasLaunchB, isLaunchEv]
          · simp [hasLaunchB_append, hasLaunchB, isLaunchEv]
          · intro _
            simp [hasLaunchB_append, hasLaunchB, isLaunchEv]
      · -- neither side reached the launch
        rcases hWet : open_using_xdg_config env cfg (wetO o) url with ⟨rw, tw⟩
        have hDry : open_using_xdg_config env cfg (dryO o) url = (rw, tw) := heq.trans hWet
        rw [hDry]
        rw [hWet] at hL hok
        simp only at hL hok
        rcases rw with _ | (ew | uw)
        · exact StratRel_same hL (by simp)
        · dsimp only
          by_cases hk : ew.kind ≠ ErrorKind.NotFound
          · rw [if_pos hk, if_pos hk]
            refine StratRel_same ?_ ?_
            · exact hL
            · simp
          · rw [if_neg hk, if_neg hk]
            exact StratRel_prepend_noLaunch tw hL (ih true)
        · cases uw
          exact absurd rfl (hok ())

theorem StratRel_try_xdg (env : Env) (o : BrowserOptions) (url : String) :
    StratRel (try_xdg env (dryO o) url) (try_xdg env (wetO o) url) := by
  unfold try_xdg
  cases resolve_path env "xdg-settings" with
  | none =>
    refine StratRel_same ?_ ?_
    · rfl
    · simp
  | some pb =>
    dsimp only
    cases env.cmdOutput pb xdgSettingsArgs with
    | error e =>
      refine StratRel_same ?_ ?_
      · rfl
      · simp
    | ok out =>
      dsimp only
      by_cases hbn : (⟨trimL out.data⟩ : String) = ""
      · rw [if_pos hbn, if_pos hbn]
        refine StratRel_same ?_ ?_
        · rfl
        · simp
      · rw [if_neg hbn, if_neg hbn]
        have h := StratRel_prepend_noLaunch [Event.query pb xdgSettingsArgs] (by rfl)
          (StratRel_xdg_dir_loop env o url ⟨trimL out.data⟩ (get_xdg_dirs env) false)
        simpa using h

theorem noLaunch_get_wsl_distro_name (env : Env) (wc : WindowsConfig) :
    noLaunchB (get_wsl_distro_name env wc).2 = true := by
  unfold get_wsl_distro_name
  cases env.getVar "WSL_DISTRO_NAME" with
  | some h => rfl
  | none =>
    cases wc.powershell_path with
    | none => rfl
    | some psexe =>
      dsimp only
      cases env.cmdOutput psexe wslPwdArgs with
      | error e => rfl
      | ok out =>
        dsimp only
        cases find_sub_idx [':', ':', '\\', '\\'] (trimEndMatches '\\' out.data) with
        | none => rfl
        | some idx => rfl

theorem noLaunch_wsl_path_lin2win (env : Env) (wc : WindowsConfig) (path : String) :
    noLaunchB (wsl_path_lin2win env wc path).2 = true := by
  unfold wsl_path_lin2win
  cases pathStripRoot path wc.root with
  | some rest => rfl
  | none =>
    dsimp only
    rcases hg : get_wsl_distro_name env wc with ⟨r, evs⟩
    have hnl := noLaunch_get_wsl_distro_name env wc
    rw [hg] at hnl
    cases r with
    | error e => exact hnl
    | ok h => exact hnl

theorem noLaunch_wsl_get_filepath (env : Env) (wc : WindowsConfig) (target : TargetType) :
    noLaunchB (wsl_get_filepath_from_url env wc target).2 = true := by
  unfold wsl_get_filepath_from_url
  by_cases hs : target.scheme = "file"
  · rw [if_pos hs]
    cases target.host with
    | none =>
      cases target.filePath with
      | none => rfl
      | some p => exact noLaunch_wsl_path_lin2win env wc p
    | some h => rfl
  · rw [if_neg hs]
    rfl

theorem noLaunch_parse_wsl_cmdline (env : Env) (wc : WindowsConfig) (cmdline : String)
    (target : TargetType) : noLaunchB (parse_wsl_cmdline env wc cmdline target).2 = true := by
  unfold parse_wsl_cmdline
  rcases hg : wsl_get_filepath_from_url env wc target with ⟨r, evs⟩
  have hnl := noLaunch_wsl_get_filepath env wc target
  rw [hg] at hnl
  cases r with
  | error e => exact hnl
  | ok fp =>
    dsimp only
    cases (for_each_token_list cmdline).map (fun t => if t = "%0" || t = "%1" then fp else t) with
    | nil => exact hnl
    | cons t0 rest =>
      dsimp only
      cases wsl_path_win2lin wc t0 with
      | error e => exact hnl
      | ok progpath => exact hnl

theorem noLaunch_ps_browser (env : Env) (wc : WindowsConfig) (target : TargetType) :
    noLaunchB (get_wsl_windows_browser_ps env wc target).2 = true := by
  unfold get_wsl_windows_browser_ps
  cases wc.powershell_path with
  | none => rfl
  | some ps_exe =>
    dsimp only
    cases env.cmdOutput ps_exe wslPsArgs with
    | error e => rfl
    | ok out =>
      dsimp only
      by_cases ho : (⟨trimL out.data⟩ : String) = ""
      · rw [if_pos ho]
        rfl
      · rw [if_neg ho]
        dsimp only
        rcases hp : parse_wsl_cmdline env wc ⟨trimL out.data⟩ target with ⟨r, evs⟩
        have hnl := noLaunch_parse_wsl_cmdline env wc ⟨trimL out.data⟩ target
        rw [hp] at hnl
        rw [noLaunchB_iff, hasLaunchB_query_cons, ← noLaunchB_iff]
        exact hnl

theorem noLaunch_cmd_browser (env : Env) (wc : WindowsConfig) (target : TargetType) :
    noLaunchB (get_wsl_windows_browser_cmd env wc target).2 = true := by
  unfold get_wsl_windows_browser_cmd
  dsimp only
  cases env.cmdOutput wc.cmd_path ["/Q", "/C", "ftype http"] with
  | error e => rfl
  | ok out =>
    dsimp only
    by_cases ho : (⟨trimL out.data⟩ : String) = ""
    · rw [if_pos ho]
      rfl
    · rw [if_neg ho]
      dsimp only
      rcases hp : parse_wsl_cmdline env wc ⟨trimL out.data⟩ target with ⟨r, evs⟩
      have hnl := noLaunch_parse_wsl_cmdline env wc ⟨trimL out.data⟩ target
      rw [hp] at hnl
      rw [noLaunchB_iff, hasLaunchB_query_cons, ← noLaunchB_iff]
      exact hnl

theorem StratRel_try_wsl (env : Env) (o : BrowserOptions) (target : TargetType) :
    StratRel (try_wsl env (dryO o) target) (try_wsl env (wetO o) target) := by
  unfold try_wsl
  by_cases hs : target.scheme = "http" ∨ target.scheme = "https"
  · rw [if_pos hs, if_pos hs]
    exact StratRel_orElse (DryWet_to_StratRel (DryWet_try_browser env o "cmd.exe" _))
      fun _ _ => StratRel_orElse (DryWet_to_StratRel (DryWet_try_browser env o "powershell.exe" _))
        fun _ _ => DryWet_to_StratRel (DryWet_try_browser env o "wsl-open" _)
  · rw [if_neg hs, if_neg hs]
    by_cases hf : target.scheme = "file" ∧ env.os = OsKind.linux
    · rw [if_pos hf, if_pos hf]
      cases get_wsl_win_config env with
      | error e =>
        refine StratRel_same ?_ ?_
        · rfl
        · simp
      | ok wc =>
        dsimp only
        rcases hbg : (if wc.powershell_path.isSome then get_wsl_windows_browser_ps env wc target
            else get_wsl_windows_browser_cmd env wc target) with ⟨br, evs⟩
        have hevs : noLaunchB evs = true := by
          by_cases hps : wc.powershell_path.isSome
          · rw [if_pos hps] at hbg
            have hnl := noLaunch_ps_browser env wc target
            rw [hbg] at hnl
            exact hnl
          · rw [if_neg hps] at hbg
            have hnl := noLaunch_cmd_browser env wc target
            rw [hbg] at hnl
            exact hnl
        cases br with
        | error e =>
          refine StratRel_same ?_ ?_
          · exact hevs
          · simp
        | ok pa =>
          obtain ⟨prog, args⟩ := pa
          dsimp only
          obtain ⟨res, hw⟩ := run_command_wet env prog args true o
          rw [run_command_dry env prog args true o, hw]
          refine ⟨?_, ?_, ?_, by simpa using hevs⟩
          · simp [hasLaunchB_append, hasLaunchB, isLaunchEv]
          · simp [hasLaunchB_append, hasLaunchB, isLaunchEv]
          · intro _
            simp [hasLaunchB_append, hasLaunchB, isLaunchEv]
    · rw [if_neg hf, if_neg hf]
      refine StratRel_same ?_ ?_
      · rfl
      · simp

theorem StratRel_try_flatpak (env : Env) (o : BrowserOptions) (target : TargetType) :
    StratRel (try_flatpak env (dryO o) target) (try_flatpak env (wetO o) target) := by
  unfold try_flatpak
  by_cases hs : target.scheme = "http" ∨ target.scheme = "https"
  · rw [if_pos hs, if_pos hs]
    exact DryWet_to_StratRel (DryWet_try_browser env o "xdg-open" _)
  · rw [if_neg hs, if_neg hs]
    refine StratRel_same ?_ ?_
    · rfl
    · simp

theorem StratRel_desktop_specific (env : Env) (o : BrowserOptions) (target : TargetType)
    (url : String) (e1 e2 : Err) :
    StratRel (desktop_specific env (dryO o) target url e1)
      (desktop_specific env (wetO o) target url e2) := by
  unfold desktop_specific
  generalize guess_desktop_env env = de
  split
  · exact StratRel_orElse (DryWet_to_StratRel (DryWet_try_browser env o "kde-open" _))
      fun _ _ => StratRel_orElse (DryWet_to_StratRel (DryWet_try_browser env o "kde-open5" _))
        fun _ _ => DryWet_to_StratRel (DryWet_try_browser env o "kfmclient" _)
  · exact StratRel_orElse (DryWet_to_StratRel (DryWet_try_browser env o "gio" _))
      fun _ _ => StratRel_orElse (DryWet_to_StratRel (DryWet_try_browser env o "gvfs-open" _))
        fun _ _ => DryWet_to_StratRel (DryWet_try_browser env o "gnome-open" _)
  · exact StratRel_orElse (DryWet_to_StratRel (DryWet_try_browser env o "gio" _))
      fun _ _ => StratRel_orElse (DryWet_to_StratRel (DryWet_try_browser env o "gvfs-open" _))
        fun _ _ => DryWet_to_StratRel (DryWet_try_browser env o "mate-open" _)
  · exact StratRel_orElse (DryWet_to_StratRel (DryWet_try_browser env o "exo-open" _))
      fun _ _ => StratRel_orElse (DryWet_to_StratRel (DryWet_try_browser env o "gio" _))
        fun _ _ => DryWet_to_StratRel (DryWet_try_browser env o "gvfs-open" _)
  · exact StratRel_try_wsl env o target
  · exact StratRel_try_flatpak env o target
  · exact StratRel_err rfl rfl

theorem StratRel_mrMapErr {d w : MR} (err : Err) (h : StratRel d w) :
    StratRel (mrMapErr d err) (mrMapErr w err) := by
  obtain ⟨c1, c2, c3, c4⟩ := h
  rcases d with ⟨rd, td⟩
  rcases w with ⟨rw, tw⟩
  simp only at c1 c2 c3 c4
  rcases rd with _ | (ed | ⟨⟩) <;> rcases rw with _ | (ew | ⟨⟩) <;>
    refine ⟨?_, ?_, ?_, ?_⟩ <;> simp_all [mrMapErr]

/-- C3 (corrected).  With `dry_run=true` the final handler command is never
spawned (the trace of the dry run contains no `launch` event — resolution
queries such as the `xdg-settings` lookup may still spawn, see the
counterexample), and the dry run returns success exactly when the
corresponding non-dry run would reach a handler launch, i.e. locate a valid
handler, whether or not that launch then succeeds. -/
theorem claim_C3_dry_run_behaviour (env : Env) (target : TargetType) (o : BrowserOptions) :
    noLaunchB (open_browser_default env target (dryO o)).2 = true
    ∧ ((open_browser_default env target (dryO o)).1 = some (.ok ())
       ↔ hasLaunchB (open_browser_default env target (wetO o)).2 = true) := by
  have h : StratRel (open_browser_default env target (dryO o))
      (open_browser_default env target (wetO o)) := by
    unfold open_browser_default
    refine StratRel_mrMapErr noBrowsersErr ?_
    refine StratRel_orElse ?_
      fun _ _ => DryWet_to_StratRel (DryWet_try_browser env o "x-www-browser" _)
    refine StratRel_orElse ?_
      fun e1 e2 => StratRel_desktop_specific env o target target.asStr e1 e2
    refine StratRel_orElse ?_ fun _ _ => StratRel_try_xdg env o target.asStr
    refine StratRel_orElse ?_
      fun _ _ => DryWet_to_StratRel (DryWet_try_haiku env o target.asStr)
    exact StratRel_try_with_browser_env env o target.asStr
  exact ⟨h.2.2.2, h.1⟩

/-- Counterexample for C3 as stated: a dry run in `envC3` does spawn an
external process — the `xdg-settings get default-web-browser` lookup. -/
theorem claim_C3_counterexample :
    (open_browser_default envC3 targetHttp (dryO {})).2
      = [Event.query "/usr/bin/xdg-settings" xdgSettingsArgs]
    ∧ (open_browser_default envC3 targetHttp (dryO {})).2 ≠ [] := by
  refine ⟨by decide, by decide⟩

end Webbrowser
